import Mathlib

/-!
# quasarLoadGenerator: a shallow embedding of `quasarLoadGenerator.go`

The development embeds the parts of the load generator that its specification
talks about: the permutation planner and the two producers (`insert_data`,
`query_data`), the stream sharder, the driver's refcount loop, the configuration
checks of `main`, the response demultiplexer (`validateResponses`) and the
delete path (`delete_data`).

Conventions of the embedding.

* Go `int64` values are mathematical integers; every arithmetic operation of the
  source is followed by `wrapInt64`, the two's-complement reduction Go performs.
  Go `int` is taken to be 64 bits wide (the platforms the tool is built for).
* Go `uint32` values are natural numbers below `2 ^ 32`; the conversion
  `uint32(x)` is `toUint32`.
* `float64` values are the rationals they denote.  The only floating-point
  computation that decides a property here is
  `math.Ceil(float64(TOTAL_RECORDS) / float64(POINTS_PER_MESSAGE))`; the
  conversion and the division are embedded with IEEE-754 round-to-nearest-even
  on a 53-bit significand (`float64OfInt`, `float64Div`).
* Package-level variables are passed explicitly (`Globals`), tables indexed by
  small integers are functions, channels are the lists of values they buffer.
* External collaborators (the RNG, the wire codec, the sockets) appear as
  parameters: the permutation returned by `permGen.Perm`, the fields of a
  response, the order in which done-signals arrive.
-/

namespace QuasarLoadGenerator

/-! ## Machine integers -/

/-- The constant `0x7FFFFFFFFFFFFFFF`. -/
def maxInt64 : Int := 0x7FFFFFFFFFFFFFFF

/-- The smallest `int64`. -/
def minInt64 : Int := -0x8000000000000000

/-- Two's-complement reduction of an integer to the `int64` range. -/
def wrapInt64 (x : Int) : Int := (x + 2 ^ 63) % 2 ^ 64 - 2 ^ 63

/-- The Go conversion `uint32(x)` of a signed integer. -/
def toUint32 (x : Int) : Nat := (x % 2 ^ 32).toNat

/-- Membership in the `int64` range. -/
def inInt64 (x : Int) : Prop := minInt64 ≤ x ∧ x ≤ maxInt64

instance (x : Int) : Decidable (inInt64 x) := by
  unfold inInt64; infer_instance

/-- The source function `min64`. -/
def min64 (x1 x2 : Int) : Int := if x1 < x2 then x1 else x2

/-! ## Package-level variables -/

/-- The package-level configuration variables of the program (source lines 23-35).
`POINTS_PER_MESSAGE` is a `uint32`; `MAX_TIME_RANDOM_OFFSET` is a `float64` that
holds an integer of magnitude at most `2 ^ 53`, hence exactly. -/
structure Globals where
  TOTAL_RECORDS : Int
  TCP_CONNECTIONS : Int
  POINTS_PER_MESSAGE : Nat
  NANOS_BETWEEN_POINTS : Int
  NUM_SERVERS : Int
  NUM_STREAMS : Int
  FIRST_TIME : Int
  RAND_SEED : Int
  PERM_SEED : Int
  MAX_TIME_RANDOM_OFFSET : Int
  DETERMINISTIC_KV : Bool
  deriving DecidableEq, Repr

/-! ## Producers -/

/-- What a producer puts on the wire for one message: the start time it read
from the permutation and the point count `numPoints` it computed (the value it
also enqueues on the credit channel and adds to `points_sent`). -/
structure Message where
  startTime : Int
  numPoints : Nat
  deriving DecidableEq, Repr

/-- The `endTime` both producers compute before their loop (source lines
108-112 and 197-201); `start` is `*start`, which the driver sets to
`FIRST_TIME`. -/
def endTimeOf (g : Globals) (start : Int) : Int :=
  if g.TOTAL_RECORDS < 0 then maxInt64
  else min64 (wrapInt64 (start + wrapInt64 (g.TOTAL_RECORDS * g.NANOS_BETWEEN_POINTS))) maxInt64

/-- One iteration of the loop of `insert_data` (source lines 115-139): the point
count of the message that starts at `time`.  The division is Go's truncating
division; `NANOS_BETWEEN_POINTS` is positive whenever a producer runs. -/
def insert_numPoints (g : Globals) (endTime time : Int) : Nat :=
  if wrapInt64 (endTime - time)
      < wrapInt64 ((g.POINTS_PER_MESSAGE : Int) * g.NANOS_BETWEEN_POINTS) then
    toUint32 (Int.tdiv (wrapInt64 (endTime - time)) g.NANOS_BETWEEN_POINTS)
  else g.POINTS_PER_MESSAGE

/-- The loop of `insert_data` over the entries `permutation[j]`. -/
def insert_loop (g : Globals) (endTime : Int) : List Int → List Message
  | [] => []
  | time :: rest => ⟨time, insert_numPoints g endTime time⟩ :: insert_loop g endTime rest

/-- The source function `insert_data`, as the sequence of messages it sends when
no send fails: it visits `permutation[j]` for `j < numMessages`. -/
def insert_data (g : Globals) (start : Int) (permutation : List Int) (numMessages : Nat) :
    List Message :=
  insert_loop g (endTimeOf g start) (permutation.take numMessages)

/-- One iteration of the loop of `query_data` (source lines 204-221). -/
def query_numPoints (g : Globals) (endTime time : Int) : Nat :=
  if wrapInt64 (endTime - time)
      < wrapInt64 ((g.POINTS_PER_MESSAGE : Int) * g.NANOS_BETWEEN_POINTS) then
    toUint32 (Int.tdiv (wrapInt64 (endTime - time)) g.NANOS_BETWEEN_POINTS)
  else g.POINTS_PER_MESSAGE

/-- The loop of `query_data` over the entries `permutation[j]`. -/
def query_loop (g : Globals) (endTime : Int) : List Int → List Message
  | [] => []
  | time :: rest => ⟨time, query_numPoints g endTime time⟩ :: query_loop g endTime rest

/-- The source function `query_data`, as the sequence of messages it sends. -/
def query_data (g : Globals) (start : Int) (permutation : List Int) (numMessages : Nat) :
    List Message :=
  query_loop g (endTimeOf g start) (permutation.take numMessages)

/-- The end of the time range a query message asks for (source line 223). -/
def query_endTime (g : Globals) (m : Message) : Int :=
  wrapInt64 (m.startTime + wrapInt64 (g.NANOS_BETWEEN_POINTS * (m.numPoints : Int)))

/-! ## The permutation planner -/

/-- Number of binary digits of `n`, for `n < 2 ^ fuel`. -/
def bitLen : Nat → Nat → Nat
  | 0, _ => 0
  | fuel + 1, n => if n = 0 then 0 else bitLen fuel (n / 2) + 1

/-- The integer nearest to `a / b`, ties going to the even one. -/
def roundHalfEven (a b : Nat) : Nat :=
  if 2 * (a % b) < b then a / b
  else if b < 2 * (a % b) then a / b + 1
  else if (a / b) % 2 = 0 then a / b else a / b + 1

/-- The conversion `float64(n)` of a non-negative `int64`: the value of the
nearest binary64 number (53-bit significand, ties to even).  Integers below
`2 ^ 53` are exact. -/
def float64OfInt (n : Nat) : Nat :=
  if n < 2 ^ 53 then n
  else roundHalfEven n (2 ^ (bitLen 64 n - 53)) * 2 ^ (bitLen 64 n - 53)

/-- The scaling of `x / y` by `2 ^ s`, as a fraction. -/
def scalePow2 (x y : Nat) (s : Int) : Nat × Nat :=
  if 0 ≤ s then (x * 2 ^ s.toNat, y) else (x, y * 2 ^ (-s).toNat)

/-- The exponent `s` for which `2 ^ 52 ≤ (x / y) * 2 ^ s < 2 ^ 53`. -/
def float64Shift (x y : Nat) : Int :=
  let s : Int := 52 - ((bitLen 128 x : Int) - 1) + ((bitLen 128 y : Int) - 1)
  if (scalePow2 x y s).1 < 2 ^ 52 * (scalePow2 x y s).2 then s + 1 else s

/-- The binary64 quotient `x / y` of two positive binary64 integers, as a
fraction (numerator, denominator): the exact quotient is scaled to a 53-bit
significand, rounded to nearest-even and scaled back.  The quotients that occur
lie between `2 ^ (-32)` and `2 ^ 63`, far inside the normal exponent range. -/
def float64Div (x y : Nat) : Nat × Nat :=
  if x = 0 then (0, 1)
  else
    let s := float64Shift x y
    let m := roundHalfEven (scalePow2 x y s).1 (scalePow2 x y s).2
    if 0 ≤ s then (m, 2 ^ s.toNat) else (m * 2 ^ (-s).toNat, 1)

/-- The function `math.Ceil` on a non-negative fraction. -/
def ceilFrac (q : Nat × Nat) : Nat := (q.1 + q.2 - 1) / q.2

/-- The variable `perm_size` of `main` (source line 586):
`int64(math.Ceil(float64(TOTAL_RECORDS) / float64(POINTS_PER_MESSAGE)))`.  It is
computed after validation, when both operands are positive; a `uint32`
converts to `float64` exactly. -/
def perm_size (g : Globals) : Nat :=
  ceilFrac (float64Div (float64OfInt g.TOTAL_RECORDS.toNat) g.POINTS_PER_MESSAGE)

/-- The start time the planner writes for grid index `f` (source lines 592 and
597): `FIRST_TIME + NANOS_BETWEEN_POINTS * int64(POINTS_PER_MESSAGE) * f`. -/
def planEntry (g : Globals) (f : Int) : Int :=
  wrapInt64 (g.FIRST_TIME
    + wrapInt64 (wrapInt64 (g.NANOS_BETWEEN_POINTS * (g.POINTS_PER_MESSAGE : Int)) * f))

/-- The planner of `main` (source lines 586-600) for one stream: `x` is the
slice `permGen.Perm(int(perm_size))` handed back by the RNG, read only when
`PERM_SEED` is not zero. -/
def planner (g : Globals) (x : List Nat) : List Int :=
  if g.PERM_SEED = 0 then
    (List.range (perm_size g)).map (fun (f : Nat) => planEntry g (f : Int))
  else
    (List.range (perm_size g)).map (fun (f : Nat) => planEntry g ((x.getD f 0 : Nat) : Int))

/-- The exact quotient `ceil(a / b)` the specification names. -/
def ceilDiv (a b : Nat) : Nat := (a + b - 1) / b

/-- The total of the point counts of a message sequence. -/
def totalPoints (ms : List Message) : Nat := (ms.map Message.numPoints).sum

/-- A configuration on which the planner sizes the permutation one short. -/
def underCountGlobals : Globals :=
  { TOTAL_RECORDS := 9007199254740993, TCP_CONNECTIONS := 1,
    POINTS_PER_MESSAGE := 2147483648, NANOS_BETWEEN_POINTS := 1, NUM_SERVERS := 1,
    NUM_STREAMS := 1, FIRST_TIME := 0, RAND_SEED := 0, PERM_SEED := 0,
    MAX_TIME_RANDOM_OFFSET := 0, DETERMINISTIC_KV := true }

/-- A configuration on which the planner sizes the permutation one long. -/
def overCountGlobals : Globals :=
  { TOTAL_RECORDS := 39040792987637564, TCP_CONNECTIONS := 1,
    POINTS_PER_MESSAGE := 3180395815, NANOS_BETWEEN_POINTS := 1, NUM_SERVERS := 1,
    NUM_STREAMS := 1, FIRST_TIME := 0, RAND_SEED := 0, PERM_SEED := 0,
    MAX_TIME_RANDOM_OFFSET := 0, DETERMINISTIC_KV := true }

/-! ## Configuration checks of `main` -/

/-- The values `getIntFromConfig` returns for the numeric keys (each parsed by
`strconv.ParseInt(_, 0, 64)`, hence an `int64`) and the string stored under
`DETERMINISTIC_KV`. -/
structure RawConfig where
  TOTAL_RECORDS : Int
  TCP_CONNECTIONS : Int
  POINTS_PER_MESSAGE : Int
  NANOS_BETWEEN_POINTS : Int
  NUM_SERVERS : Int
  NUM_STREAMS : Int
  FIRST_TIME : Int
  RAND_SEED : Int
  PERM_SEED : Int
  MAX_CONCURRENT_MESSAGES : Int
  MAX_TIME_RANDOM_OFFSET : Int
  DETERMINISTIC_KV : String
  deriving DecidableEq, Repr

/-- How the configuration phase of `main` (source lines 445-481) ends. -/
inductive ConfigOutcome where
  /-- The call `os.Exit(code)`. -/
  | exited (code : Nat)
  /-- The `return` that follows the message about `PERM_SEED` (source line 478). -/
  | returned
  /-- Execution goes on with these globals and this `maxConcurrentMessages`. -/
  | accepted (g : Globals) (maxConcurrentMessages : Int)
  deriving DecidableEq, Repr

/-- The four numeric checks of `main` (source lines 456-471), on the variables as
`main` has assigned them: `POINTS_PER_MESSAGE` has already been converted with
`uint32(_)`, the `int` variables with `int(_)` (the identity on 64 bits).  The
result is `true` when no check calls `os.Exit(1)`. -/
def numericChecks (c : RawConfig) : Bool :=
  let TOTAL_RECORDS := c.TOTAL_RECORDS
  let TCP_CONNECTIONS := c.TCP_CONNECTIONS
  let POINTS_PER_MESSAGE := toUint32 c.POINTS_PER_MESSAGE
  let NANOS_BETWEEN_POINTS := c.NANOS_BETWEEN_POINTS
  let NUM_STREAMS := c.NUM_STREAMS
  let maxConcurrentMessages := c.MAX_CONCURRENT_MESSAGES
  let timeRandOffset := c.MAX_TIME_RANDOM_OFFSET
  if TOTAL_RECORDS ≤ 0 ∨ TCP_CONNECTIONS ≤ 0 ∨ POINTS_PER_MESSAGE ≤ 0
      ∨ NANOS_BETWEEN_POINTS ≤ 0 ∨ NUM_STREAMS ≤ 0 ∨ maxConcurrentMessages ≤ 0 then false
  else if timeRandOffset ≥ NANOS_BETWEEN_POINTS then false
  else if timeRandOffset > 2 ^ 53 then false
  else if timeRandOffset < 0 then false
  else true

/-- The configuration phase of `main` (source lines 445-481).  The package-level
variable `DETERMINISTIC_KV` is read by the check of line 476 and assigned only on
line 481, so the check sees its initial value `false`. -/
def main_config (VERIFY_RESPONSES : Bool) (c : RawConfig) : ConfigOutcome :=
  let DETERMINISTIC_KV := false
  if numericChecks c = false then ConfigOutcome.exited 1
  else
    let maxConcurrentMessages :=
      if VERIFY_RESPONSES = true ∧ c.MAX_CONCURRENT_MESSAGES > 1 then 1
      else c.MAX_CONCURRENT_MESSAGES
    if VERIFY_RESPONSES = true ∧ c.PERM_SEED ≠ 0 ∧ DETERMINISTIC_KV = false then
      ConfigOutcome.returned
    else
      ConfigOutcome.accepted
        { TOTAL_RECORDS := c.TOTAL_RECORDS
          TCP_CONNECTIONS := c.TCP_CONNECTIONS
          POINTS_PER_MESSAGE := toUint32 c.POINTS_PER_MESSAGE
          NANOS_BETWEEN_POINTS := c.NANOS_BETWEEN_POINTS
          NUM_SERVERS := c.NUM_SERVERS
          NUM_STREAMS := c.NUM_STREAMS
          FIRST_TIME := c.FIRST_TIME
          RAND_SEED := c.RAND_SEED
          PERM_SEED := c.PERM_SEED
          MAX_TIME_RANDOM_OFFSET := c.MAX_TIME_RANDOM_OFFSET
          DETERMINISTIC_KV := (c.DETERMINISTIC_KV == "true") }
        maxConcurrentMessages

/-- The condition the specification puts on the configured numeric values. -/
def specNumericRange (c : RawConfig) : Prop :=
  0 < c.TOTAL_RECORDS ∧ 0 < c.TCP_CONNECTIONS ∧ 0 < c.POINTS_PER_MESSAGE
    ∧ 0 < c.NANOS_BETWEEN_POINTS ∧ 0 < c.NUM_STREAMS ∧ 0 < c.MAX_CONCURRENT_MESSAGES
    ∧ 0 ≤ c.MAX_TIME_RANDOM_OFFSET ∧ c.MAX_TIME_RANDOM_OFFSET < c.NANOS_BETWEEN_POINTS
    ∧ c.MAX_TIME_RANDOM_OFFSET ≤ 2 ^ 53

/-- A configuration file whose values are those of scenario A of the
specification, with the given `POINTS_PER_MESSAGE`, `PERM_SEED` and
`DETERMINISTIC_KV`. -/
def scenarioConfig (pointsPerMessage permSeed : Int) (deterministic : String) : RawConfig :=
  { TOTAL_RECORDS := 10, TCP_CONNECTIONS := 1, POINTS_PER_MESSAGE := pointsPerMessage,
    NANOS_BETWEEN_POINTS := 1000, NUM_SERVERS := 1, NUM_STREAMS := 1, FIRST_TIME := 0,
    RAND_SEED := 0, PERM_SEED := permSeed, MAX_CONCURRENT_MESSAGES := 2,
    MAX_TIME_RANDOM_OFFSET := 0, DETERMINISTIC_KV := deterministic }

/-- The configuration file that yields the globals `g` (with window `m`). -/
def rawOf (g : Globals) (m : Int) : RawConfig :=
  { TOTAL_RECORDS := g.TOTAL_RECORDS, TCP_CONNECTIONS := g.TCP_CONNECTIONS,
    POINTS_PER_MESSAGE := g.POINTS_PER_MESSAGE, NANOS_BETWEEN_POINTS := g.NANOS_BETWEEN_POINTS,
    NUM_SERVERS := g.NUM_SERVERS, NUM_STREAMS := g.NUM_STREAMS, FIRST_TIME := g.FIRST_TIME,
    RAND_SEED := g.RAND_SEED, PERM_SEED := g.PERM_SEED, MAX_CONCURRENT_MESSAGES := m,
    MAX_TIME_RANDOM_OFFSET := g.MAX_TIME_RANDOM_OFFSET,
    DETERMINISTIC_KV := if g.DETERMINISTIC_KV then "true" else "false" }

/-! ## Sharding and the driver loops -/

/-- The source type `ConnectionID`. -/
structure ConnectionID where
  serverIndex : Nat
  connectionIndex : Nat
  deriving DecidableEq, Repr

/-- The source function `getServer`: `int(uint(uuid[0]) % uint(NUM_SERVERS))`.  The
result is `none` where Go panics (an empty slice, a zero modulus).  The driver
calls it after `make([]string, NUM_SERVERS)` succeeded, so `NUM_SERVERS` is not
negative and `uint(NUM_SERVERS)` is `NUM_SERVERS`. -/
def getServer (NUM_SERVERS : Nat) (uuid : List (Fin 256)) : Option Nat :=
  match uuid with
  | [] => none
  | b :: _ => if NUM_SERVERS = 0 then none else some (b.val % NUM_SERVERS)

/-- The variables of `main` that the two assignment loops update: `streamCounts`,
`usingConn`, and the `ConnectionID` handed to the goroutine started for each
stream, in stream order. -/
structure Assignment where
  streamCounts : Nat → Nat
  usingConn : Nat → Nat → Int
  spawned : List ConnectionID

/-- The state before the assignment loops: both tables are freshly made, hence
zero, and no goroutine has been started. -/
def Assignment.init : Assignment :=
  { streamCounts := fun _ => 0, usingConn := fun _ _ => 0, spawned := [] }

/-- The table `t` with entry `(s, c)` replaced by `v`. -/
def setEntry (t : Nat → Nat → Int) (s c : Nat) (v : Int) : Nat → Nat → Int :=
  fun s1 c1 => if s1 = s ∧ c1 = c then v else t s1 c1

/-- The body of the delete-mode loop (source lines 606-609).  The result is
`none` where Go panics (in `getServer`, or taking a remainder by zero). -/
def delete_assign_step (NUM_SERVERS TCP_CONNECTIONS : Nat) (a : Assignment)
    (uuid : List (Fin 256)) : Option Assignment :=
  match getServer NUM_SERVERS uuid with
  | none => none
  | some serverIndex =>
    if TCP_CONNECTIONS = 0 then none
    else
      let connIndex := a.streamCounts serverIndex % TCP_CONNECTIONS
      some { streamCounts :=
               Function.update a.streamCounts serverIndex (a.streamCounts serverIndex + 1)
             usingConn := a.usingConn
             spawned := a.spawned ++ [⟨serverIndex, connIndex⟩] }

/-- The delete-mode loop of `main` (source lines 605-610) over the stream UUIDs. -/
def delete_assign (NUM_SERVERS TCP_CONNECTIONS : Nat) :
    Assignment → List (List (Fin 256)) → Option Assignment
  | a, [] => some a
  | a, uuid :: rest =>
    match delete_assign_step NUM_SERVERS TCP_CONNECTIONS a uuid with
    | none => none
    | some a1 => delete_assign NUM_SERVERS TCP_CONNECTIONS a1 rest

/-- The body of the insert/query-mode loop (source lines 613-622), restricted to
the variables of `Assignment`. -/
def send_assign_step (NUM_SERVERS TCP_CONNECTIONS : Nat) (a : Assignment)
    (uuid : List (Fin 256)) : Option Assignment :=
  match getServer NUM_SERVERS uuid with
  | none => none
  | some serverIndex =>
    if TCP_CONNECTIONS = 0 then none
    else
      let connIndex := a.streamCounts serverIndex % TCP_CONNECTIONS
      some { streamCounts :=
               Function.update a.streamCounts serverIndex (a.streamCounts serverIndex + 1)
             usingConn :=
               setEntry a.usingConn serverIndex connIndex (a.usingConn serverIndex connIndex + 1)
             spawned := a.spawned ++ [⟨serverIndex, connIndex⟩] }

/-- The insert/query-mode loop of `main` (source lines 612-623). -/
def send_assign (NUM_SERVERS TCP_CONNECTIONS : Nat) :
    Assignment → List (List (Fin 256)) → Option Assignment
  | a, [] => some a
  | a, uuid :: rest =>
    match send_assign_step NUM_SERVERS TCP_CONNECTIONS a uuid with
    | none => none
    | some a1 => send_assign NUM_SERVERS TCP_CONNECTIONS a1 rest

/-- The variables of the done-signal loop: the refcount table and, for every
call of `Close()`, the iteration `k` in which it happened and the connection
closed, in order. -/
structure DoneState where
  usingConn : Nat → Nat → Int
  closed : List (Nat × ConnectionID)

/-- The body of the done-signal loop (source lines 658-665) in iteration `k`, for
the signal `response` received from `sig`. -/
def done_step (k : Nat) (d : DoneState) (response : ConnectionID) : DoneState :=
  let serverIndex := response.serverIndex
  let connIndex := response.connectionIndex
  let usingConn := setEntry d.usingConn serverIndex connIndex (d.usingConn serverIndex connIndex - 1)
  if usingConn serverIndex connIndex = 0 then
    { usingConn := usingConn, closed := d.closed ++ [(k, response)] }
  else { usingConn := usingConn, closed := d.closed }

/-- The done-signal loop of `main` (source lines 657-666) from iteration `k` on;
`signals` are the values received from `sig`, in arrival order. -/
def done_loop : Nat → DoneState → List ConnectionID → DoneState
  | _, d, [] => d
  | k, d, response :: rest => done_loop (k + 1) (done_step k d response) rest

/-- The first byte of a UUID (zero for the empty slice, which no parsed UUID is). -/
def firstByte (uuid : List (Fin 256)) : Nat := (uuid.headD 0).val

/-- The assignment the specification gives stream `s`: server
`uuids[s][0] mod NUM_SERVERS`, connection (number of earlier streams on the same
server) `mod TCP_CONNECTIONS`. -/
def specAssignment (NUM_SERVERS TCP_CONNECTIONS : Nat) (uuids : List (List (Fin 256)))
    (s : Nat) : ConnectionID :=
  let server := fun (u : List (Fin 256)) => firstByte u % NUM_SERVERS
  { serverIndex := server (uuids.getD s [])
    connectionIndex :=
      ((uuids.take s).countP (fun u => server u = server (uuids.getD s []))) % TCP_CONNECTIONS }

/-- The stream set of scenario E of the specification: three 16-byte UUIDs whose
first bytes are 0, 1 and 2, so that the first byte modulo 2 is 0, 1, 0. -/
def scenarioE_uuids : List (List (Fin 256)) :=
  [0 :: List.replicate 15 7, 1 :: List.replicate 15 7, 2 :: List.replicate 15 7]

/-! ## Credit channels -/

/-- A receive `<-channel` on a buffered channel holding `ch` (oldest value first):
the value received and what stays buffered, or `none` when the receiver has to
wait. -/
def chanRecv (ch : List Nat) : Option (Nat × List Nat) :=
  match ch with
  | [] => none
  | c :: rest => some (c, rest)

/-- A send `channel <- v` on a channel made with `make(chan uint32, capacity)`:
the new contents, or `none` when the sender has to wait. -/
def chanSend (capacity : Nat) (ch : List Nat) (v : Nat) : Option (List Nat) :=
  if ch.length < capacity then some (ch ++ [v]) else none

/-! ## The response demultiplexer -/

/-- The fields of a response frame that `validateResponses` reads: echo tag,
whether the status code is `STATUSCODE_OK`, the final flag and the records
(time, value).  Values of type `V` stand for `float64` compared with `==`. -/
structure Response (V : Type) where
  echoTag : Nat
  statusOK : Bool
  final : Bool
  records : List (Int × V)

/-- What `validateResponses` reads but never writes: the globals, the flag
`VERIFY_RESPONSES`, the table `sines`, and the outcomes of the per-stream
generators: `rng id n` is the pair (`int64(randGen.Float64() *
MAX_TIME_RANDOM_OFFSET)`, `randGen.NormFloat64()`) that `randGens[id]` yields
for the `n`-th record verified on stream `id` in stochastic mode. -/
structure DemuxEnv (V : Type) where
  g : Globals
  VERIFY_RESPONSES : Bool
  sines : Nat → V
  rng : Nat → Nat → Int × V

/-- The variables `validateResponses` updates: the credit channels
(`idToChannel`), the counters, the cursors `times`, the accumulators
`receivedCounts`, the flag `*pass`, the sine cursor `sinesIndex`, the number of
draws taken from each stream generator, and a log of the triple (echo tag,
`expTime`, `expected`) computed for every record verified. -/
structure DemuxState (V : Type) where
  channels : Nat → List Nat
  points_received : Nat
  points_verified : Nat
  times : Nat → Int
  receivedCounts : Nat → Nat
  pass : Bool
  sinesIndex : Nat
  rngPos : Nat → Nat
  expectedLog : List (Nat × Int × V)

/-- The state in which the driver starts the demultiplexers: `startTimes[z]` is
`FIRST_TIME`, the accumulators are zero, the flag is `true`, and `sinesIndex`
has its initial value 100. -/
def DemuxState.init {V : Type} (g : Globals) (channels : Nat → List Nat) : DemuxState V :=
  { channels := channels, points_received := 0, points_verified := 0,
    times := fun _ => g.FIRST_TIME, receivedCounts := fun _ => 0, pass := true,
    sinesIndex := 100, rngPos := fun _ => 0, expectedLog := [] }

/-- The source function `getSinusoidValue` on the package-level `sinesIndex`:
the value returned and the new `sinesIndex`. -/
def getSinusoidValue {V : Type} (sines : Nat → V) (sinesIndex : Nat) : V × Nat :=
  (sines ((sinesIndex + 1) % 100), (sinesIndex + 1) % 100)

/-- The body of the record loop of `validateResponses` (source lines 297-311)
for one record of stream `id`; the local `currTime` is threaded alongside the
state. -/
def verifyRecord {V : Type} [DecidableEq V] (env : DemuxEnv V) (id : Nat)
    (acc : DemuxState V × Int) (record : Int × V) : DemuxState V × Int :=
  let s := acc.1
  let currTime := acc.2
  let received := record.2
  let recTime := record.1
  let expTime :=
    if env.g.DETERMINISTIC_KV then currTime
    else wrapInt64 (currTime + (env.rng id (s.rngPos id)).1)
  let expected :=
    if env.g.DETERMINISTIC_KV then (getSinusoidValue env.sines s.sinesIndex).1
    else (env.rng id (s.rngPos id)).2
  let sinesIndex :=
    if env.g.DETERMINISTIC_KV then (getSinusoidValue env.sines s.sinesIndex).2
    else s.sinesIndex
  let rngPos :=
    if env.g.DETERMINISTIC_KV then s.rngPos
    else Function.update s.rngPos id (s.rngPos id + 1)
  let ok := decide (expTime = recTime) && decide (received = expected)
  ({ channels := s.channels
     points_received := s.points_received
     points_verified := if ok then (s.points_verified + 1) % 2 ^ 32 else s.points_verified
     times := s.times
     receivedCounts := s.receivedCounts
     pass := if ok then s.pass else false
     sinesIndex := sinesIndex
     rngPos := rngPos
     expectedLog := s.expectedLog ++ [(id, expTime, expected)] },
   wrapInt64 (currTime + env.g.NANOS_BETWEEN_POINTS))

/-- How one iteration of the loop of `validateResponses` ends. -/
inductive IterOutcome (V : Type) where
  /-- The `return` taken when `*numUsing == 0`. -/
  | returned
  /-- The call `os.Exit(code)`. -/
  | exited (code : Nat)
  /-- The receive `<-channel` found the channel empty: the task waits. -/
  | blocked
  /-- The iteration ran to its end. -/
  | continued (s : DemuxState V)

/-- One iteration of the loop of `validateResponses` (source lines 248-314):
`numUsing` is `*numUsing` at the check, `respErr` tells whether
`capnp.ReadFromStream` failed, `r` is the response read.  Echo tags are stream
indices (the server echoes the tag of a request), so the tables indexed by the
tag are read inside their bounds. -/
def validateResponses_iter {V : Type} [DecidableEq V] (env : DemuxEnv V) (numUsing : Int)
    (respErr : Bool) (r : Response V) (s : DemuxState V) : IterOutcome V :=
  if numUsing = 0 then IterOutcome.returned
  else if respErr then IterOutcome.exited 1
  else
    let id := r.echoTag
    match (if r.final then chanRecv (s.channels id) else some (0, s.channels id)) with
    | none => IterOutcome.blocked
    | some (numPoints, channel) =>
      let points_received :=
        if r.final then (s.points_received + numPoints) % 2 ^ 32 else s.points_received
      if r.statusOK = false then IterOutcome.exited 1
      else if env.VERIFY_RESPONSES = false then
        IterOutcome.continued
          { channels := Function.update s.channels id channel
            points_received := points_received
            points_verified := s.points_verified
            times := s.times
            receivedCounts := s.receivedCounts
            pass := s.pass
            sinesIndex := s.sinesIndex
            rngPos := s.rngPos
            expectedLog := s.expectedLog }
      else
        let num_records := r.records.length % 2 ^ 32
        let s1 : DemuxState V :=
          { channels := Function.update s.channels id channel
            points_received := points_received
            points_verified := s.points_verified
            times := s.times
            receivedCounts :=
              if r.final then Function.update s.receivedCounts id 0
              else Function.update s.receivedCounts id
                ((s.receivedCounts id + num_records) % 2 ^ 32)
            pass :=
              if r.final = true ∧ (num_records + s.receivedCounts id) % 2 ^ 32 ≠ numPoints
              then false else s.pass
            sinesIndex := s.sinesIndex
            rngPos := s.rngPos
            expectedLog := s.expectedLog }
        let out := (r.records.take num_records).foldl (verifyRecord env id) (s1, s.times id)
        IterOutcome.continued
          { channels := out.1.channels
            points_received := out.1.points_received
            points_verified := out.1.points_verified
            times := Function.update out.1.times id out.2
            receivedCounts := out.1.receivedCounts
            pass := out.1.pass
            sinesIndex := out.1.sinesIndex
            rngPos := out.1.rngPos
            expectedLog := out.1.expectedLog }

/-- Successive iterations of `validateResponses` on the responses `rs`, each read
without error while the refcount of its connection is not zero; `none` when an
iteration does not run to its end.  This is the loop of one connection: `rs`
lists the responses read from that connection, in order.  The entries of
`times`, `receivedCounts` and the channels are touched only by the loop of the
connection that serves their stream; `sinesIndex` is a package variable that the
loop of every connection in use advances, without synchronisation, so the field
follows it only while no other loop verifies records, that is, when all streams
are served over one connection (the loops of the other connections return on
`*numUsing == 0` before they verify anything). -/
def validateResponses_run {V : Type} [DecidableEq V] (env : DemuxEnv V) :
    DemuxState V → List (Response V) → Option (DemuxState V)
  | s, [] => some s
  | s, r :: rest =>
    match validateResponses_iter env 1 false r s with
    | IterOutcome.continued s1 => validateResponses_run env s1 rest
    | _ => none

/-- The echo tag of every record that `validateResponses` verifies when it
processes `rs`, in order. -/
def recordTags {V : Type} (rs : List (Response V)) : List Nat :=
  match rs with
  | [] => []
  | r :: rest =>
    List.replicate (r.records.take (r.records.length % 2 ^ 32)).length r.echoTag
      ++ recordTags rest

/-! ## The delete path -/

/-- How a task that serves one stream ends: by `os.Exit(code)`, or by sending its
`ConnectionID` on the done-signal channel (`printedStatus` tells whether it
printed the line about a status code first). -/
inductive TaskOutcome where
  | exited (code : Nat)
  | signalled (connID : ConnectionID) (printedStatus : Bool)
  deriving DecidableEq, Repr

/-- The source function `delete_data` (lines 338-377): `sendErr` and `respErr`
tell whether the write and the read failed, `statusOK` whether the status code
of the response is `STATUSCODE_OK`.  A status other than OK is printed and the
function goes on to `response <- connID`. -/
def delete_data (connID : ConnectionID) (sendErr respErr statusOK : Bool) : TaskOutcome :=
  if sendErr then TaskOutcome.exited 1
  else if respErr then TaskOutcome.exited 1
  else if statusOK = false then TaskOutcome.signalled connID true
  else TaskOutcome.signalled connID false

/-! ## One stream as a transition system -/

/-- The state of one stream: the loop index `j` of its producer, the count the
producer has put on the credit channel for a frame it has not written yet, the
contents of the credit channel `cont`, the point counts of the frames written,
the credits the demultiplexer has received for final responses, and whether the
producer has left its loop on a send error. -/
structure StreamState where
  j : Nat
  enqueued : Option Nat
  cont : List Nat
  sent : List Nat
  credits : List Nat
  halted : Bool

/-- The state in which the driver starts a stream. -/
def StreamState.init : StreamState :=
  { j := 0, enqueued := none, cont := [], sent := [], credits := [], halted := false }

/-- The steps of one stream whose producer sends the messages `msgs` through a
credit channel of capacity `M`. -/
inductive StreamStep (M : Nat) (msgs : List Message) : StreamState → StreamState → Prop where
  /-- The producer executes `cont <- numPoints` for message `j` (lines 139, 221). -/
  | enqueue (s : StreamState) (m : Message) (cont1 : List Nat) :
      s.halted = false → s.enqueued = none → msgs[s.j]? = some m →
      chanSend M s.cont m.numPoints = some cont1 →
      StreamStep M msgs s
        { j := s.j, enqueued := some m.numPoints, cont := cont1, sent := s.sent,
          credits := s.credits, halted := s.halted }
  /-- The producer writes the frame and goes to the next message. -/
  | send (s : StreamState) (n : Nat) :
      s.enqueued = some n →
      StreamStep M msgs s
        { j := s.j + 1, enqueued := none, cont := s.cont, sent := s.sent ++ [n],
          credits := s.credits, halted := s.halted }
  /-- The write fails: the producer leaves its loop (lines 163-166, 233-236). -/
  | sendError (s : StreamState) (n : Nat) :
      s.enqueued = some n →
      StreamStep M msgs s
        { j := s.j, enqueued := none, cont := s.cont, sent := s.sent,
          credits := s.credits, halted := true }
  /-- The demultiplexer processes a final response with the tag of the stream:
  `numPoints = <-channel` (line 269). -/
  | finalResponse (s : StreamState) (c : Nat) (cont1 : List Nat) :
      chanRecv s.cont = some (c, cont1) →
      StreamStep M msgs s
        { j := s.j, enqueued := s.enqueued, cont := cont1, sent := s.sent,
          credits := s.credits ++ [c], halted := s.halted }
  /-- The demultiplexer processes a response that is not final. -/
  | intermediateResponse (s : StreamState) : StreamStep M msgs s s

/-- The states a stream can be in. -/
def StreamReachable (M : Nat) (msgs : List Message) (s : StreamState) : Prop :=
  Relation.ReflTransGen (StreamStep M msgs) StreamState.init s

/-- What the producers rely on: the numeric checks of `main` have passed
(`TOTAL_RECORDS`, `POINTS_PER_MESSAGE` and `NANOS_BETWEEN_POINTS` are positive,
`POINTS_PER_MESSAGE` is a `uint32`) and neither
`FIRST_TIME + TOTAL_RECORDS * NANOS_BETWEEN_POINTS` nor
`POINTS_PER_MESSAGE * NANOS_BETWEEN_POINTS` overflows `int64`. -/
def ProducerPre (g : Globals) : Prop :=
  0 < g.TOTAL_RECORDS ∧ 0 < g.POINTS_PER_MESSAGE ∧ g.POINTS_PER_MESSAGE < 2 ^ 32
    ∧ 0 < g.NANOS_BETWEEN_POINTS ∧ minInt64 ≤ g.FIRST_TIME
    ∧ g.TOTAL_RECORDS * g.NANOS_BETWEEN_POINTS ≤ maxInt64
    ∧ g.FIRST_TIME + g.TOTAL_RECORDS * g.NANOS_BETWEEN_POINTS ≤ maxInt64
    ∧ (g.POINTS_PER_MESSAGE : Int) * g.NANOS_BETWEEN_POINTS ≤ maxInt64

/-- The closes the done-signal loop is expected to perform on the signals `sigs`
received from iteration `k` on: one for every signal that is the last one of its
connection. -/
def lastOccurrences : Nat → List ConnectionID → List (Nat × ConnectionID)
  | _, [] => []
  | k, r :: rest =>
    if r ∈ rest then lastOccurrences (k + 1) rest
    else (k, r) :: lastOccurrences (k + 1) rest

/-- The assignment state the insert/query-mode loop reaches on the streams of
scenario E with two servers and one connection per server. -/
def scenarioE_assignment : Assignment :=
  (send_assign 2 1 Assignment.init scenarioE_uuids).getD Assignment.init

/-- The facts about a stream state that every step preserves; `counts` are the
point counts of the messages of the producer, in send order. -/
def StreamInv (M : Nat) (counts : List Nat) (s : StreamState) : Prop :=
  s.cont.length ≤ M
    ∧ (∃ t, counts = s.credits ++ s.cont ++ t)
    ∧ (∃ t, counts = s.sent ++ t)
    ∧ s.sent.length = s.j
    ∧ s.j ≤ s.credits.length + s.cont.length
    ∧ (s.enqueued = none → s.halted = false → s.credits.length + s.cont.length = s.j)
    ∧ (∀ n, s.enqueued = some n →
        s.credits.length + s.cont.length = s.j + 1 ∧ counts[s.j]? = some n)

/-- A stream with one message of four points and window 2, after its producer
has enqueued the credit and written the frame. -/
def streamAfterSend : StreamState :=
  { j := 1, enqueued := none, cont := [4], sent := [4], credits := [], halted := false }

/-- The triple the verifier computes for the `n`-th record it verifies, when the
echo tags of the records verified so far and later are `tags`: the tag, the time
`FIRST_TIME + idx * NANOS_BETWEEN_POINTS` in `int64` arithmetic, where `idx`
counts the earlier records of the same stream, and entry `(n + 1) mod 100` of
the sine table. -/
def expectedPair {V : Type} (g : Globals) (sines : Nat → V) (tags : List Nat) (n : Nat) :
    Nat × Int × V :=
  (tags.getD n 0,
    wrapInt64 (g.FIRST_TIME
      + (((tags.take n).count (tags.getD n 0) : Nat) : Int) * g.NANOS_BETWEEN_POINTS),
    sines ((n + 1) % 100))

/-- The globals of scenario C of the specification (verify mode, two streams,
`P = 3`, `Delta = 100`, `TOTAL_RECORDS = 6`, `T0 = 1000`, deterministic). -/
def scenarioC_globals : Globals :=
  { TOTAL_RECORDS := 6, TCP_CONNECTIONS := 1, POINTS_PER_MESSAGE := 3,
    NANOS_BETWEEN_POINTS := 100, NUM_SERVERS := 1, NUM_STREAMS := 2, FIRST_TIME := 1000,
    RAND_SEED := 0, PERM_SEED := 0, MAX_TIME_RANDOM_OFFSET := 0, DETERMINISTIC_KV := true }

/-- The verifier of scenario C; the table is represented by its indices, entry
`k` standing for `sin(2 * pi * k / 100)`. -/
def scenarioC_env : DemuxEnv Nat :=
  { g := scenarioC_globals, VERIFY_RESPONSES := true, sines := fun k => k,
    rng := fun _ _ => (0, 0) }

/-- The credit channels of scenario C when each stream has one request of three
points in flight. -/
def scenarioC_channels : Nat → List Nat := fun _ => [3]

/-- The final response to the first request of a stream of scenario C, carrying
the records the producer of a one-stream insert run would have written. -/
def scenarioC_response (tag : Nat) (firstEntry : Nat) : Response Nat :=
  { echoTag := tag, statusOK := true, final := true,
    records := [(1000, firstEntry), (1100, firstEntry + 1), (1200, firstEntry + 2)] }

/-- The state of the verifier of scenario C after the final responses to the first
request of stream 0 and to the first request of stream 1, in this order. -/
def scenarioC_after : DemuxState Nat :=
  (validateResponses_run scenarioC_env (DemuxState.init scenarioC_globals scenarioC_channels)
    [scenarioC_response 0 1, scenarioC_response 1 4]).getD
    (DemuxState.init scenarioC_globals scenarioC_channels)

/-- The globals of scenario A of the specification (`TOTAL_RECORDS = 10`, `P = 4`,
`Delta = 1000`, `T0 = 0`, sequential order). -/
def scenarioA_globals : Globals :=
  { TOTAL_RECORDS := 10, TCP_CONNECTIONS := 1, POINTS_PER_MESSAGE := 4,
    NANOS_BETWEEN_POINTS := 1000, NUM_SERVERS := 1, NUM_STREAMS := 1, FIRST_TIME := 0,
    RAND_SEED := 0, PERM_SEED := 0, MAX_TIME_RANDOM_OFFSET := 0, DETERMINISTIC_KV := true }

/-! ## The DB_ADDR and UUID checks of `main` -/

/-- The keys `DB_ADDR<n>` and `UUID<n>` of the configuration file, for `n ≥ 1`:
`dbAddr n` is the string stored under `DB_ADDR<n>`, if any; `uuid n` is `none`
when there is no key `UUID<n>`, `some none` when `uuid.Parse` returns `nil` on
its string, and `some (some u)` when it returns the bytes `u`. -/
structure KeyedConfig where
  dbAddr : Nat → Option String
  uuid : Nat → Option (Option (List (Fin 256)))

/-- The loop over the keys `DB_ADDR1, DB_ADDR2, ...` (source lines 500-506), from
index `j` with `remaining` iterations to go: the value of `j` when the loop is
left, by `break` on the first missing key or at the end of the count. -/
def dbAddrLoop (k : KeyedConfig) : Nat → Nat → Nat
  | j, 0 => j
  | j, remaining + 1 =>
    match k.dbAddr (j + 1) with
    | none => j
    | some _ => dbAddrLoop k (j + 1) remaining

/-- The loop over the keys `UUID1, UUID2, ...` (source lines 517-528): the value
of `j` when the loop is left together with the UUIDs stored, or `none` when an
invalid UUID makes the program call `os.Exit(1)`. -/
def uuidLoop (k : KeyedConfig) :
    Nat → Nat → List (List (Fin 256)) → Option (Nat × List (List (Fin 256)))
  | j, 0, uuids => some (j, uuids)
  | j, remaining + 1, uuids =>
    match k.uuid (j + 1) with
    | none => some (j, uuids)
    | some none => none
    | some (some u) => uuidLoop k (j + 1) remaining (uuids ++ [u])

/-- How the validation of `main` (source lines 445-533) ends. -/
inductive ValidationOutcome where
  /-- The call `os.Exit(code)`. -/
  | exited (code : Nat)
  /-- The `return` of the permutation check. -/
  | returned
  /-- A run-time panic: `make` with a negative length. -/
  | panicked
  /-- Every check has passed: the globals, the window and the stream UUIDs. -/
  | passed (g : Globals) (maxConcurrentMessages : Int) (uuids : List (List (Fin 256)))
  deriving DecidableEq, Repr

/-- The validation of `main`: the configuration phase (`main_config`), then the
DB_ADDR count check (source lines 496-511) and the UUID count check (source
lines 513-533).  `NUM_SERVERS` is the length of `make([]string, NUM_SERVERS)`
and takes part in no other check. -/
def main_validation (VERIFY_RESPONSES : Bool) (c : RawConfig) (k : KeyedConfig) :
    ValidationOutcome :=
  match main_config VERIFY_RESPONSES c with
  | ConfigOutcome.exited code => ValidationOutcome.exited code
  | ConfigOutcome.returned => ValidationOutcome.returned
  | ConfigOutcome.accepted g maxConcurrentMessages =>
    if g.NUM_SERVERS < 0 then ValidationOutcome.panicked
    else
      let j := dbAddrLoop k 0 g.NUM_SERVERS.toNat
      if (j : Int) ≠ g.NUM_SERVERS ∨ (k.dbAddr (j + 1)).isSome = true then
        ValidationOutcome.exited 1
      else
        match uuidLoop k 0 g.NUM_STREAMS.toNat [] with
        | none => ValidationOutcome.exited 1
        | some (j1, uuids) =>
          if (j1 : Int) ≠ g.NUM_STREAMS ∨ (k.uuid (j1 + 1)).isSome = true then
            ValidationOutcome.exited 1
          else ValidationOutcome.passed g maxConcurrentMessages uuids

/-- The assignment loop `main` runs after validation (source lines 604-623):
the delete-mode loop or the insert/query-mode loop, on the validated globals. -/
def main_assign (DELETE_POINTS : Bool) (g : Globals) (uuids : List (List (Fin 256))) :
    Option Assignment :=
  if DELETE_POINTS then
    delete_assign g.NUM_SERVERS.toNat g.TCP_CONNECTIONS.toNat Assignment.init uuids
  else send_assign g.NUM_SERVERS.toNat g.TCP_CONNECTIONS.toNat Assignment.init uuids

/-- A configuration file with the numeric keys of scenario A except
`NUM_SERVERS = 0`. -/
def noServerConfig : RawConfig :=
  { TOTAL_RECORDS := 10, TCP_CONNECTIONS := 1, POINTS_PER_MESSAGE := 4,
    NANOS_BETWEEN_POINTS := 1000, NUM_SERVERS := 0, NUM_STREAMS := 1, FIRST_TIME := 0,
    RAND_SEED := 0, PERM_SEED := 0, MAX_CONCURRENT_MESSAGES := 2,
    MAX_TIME_RANDOM_OFFSET := 0, DETERMINISTIC_KV := "true" }

/-- The keyed part of that file: no `DB_ADDR` key, and one key `UUID1` holding a
valid UUID whose first byte is 7. -/
def noServerKeys : KeyedConfig :=
  { dbAddr := fun _ => none
    uuid := fun n => if n = 1 then some (some (7 :: List.replicate 15 0)) else none }

/-- The globals `main` holds after reading `noServerConfig`. -/
def noServerGlobals : Globals :=
  { TOTAL_RECORDS := 10, TCP_CONNECTIONS := 1, POINTS_PER_MESSAGE := 4,
    NANOS_BETWEEN_POINTS := 1000, NUM_SERVERS := 0, NUM_STREAMS := 1, FIRST_TIME := 0,
    RAND_SEED := 0, PERM_SEED := 0, MAX_TIME_RANDOM_OFFSET := 0, DETERMINISTIC_KV := true }

/-- The total number of records the responses `rs` carry. -/
def recordCount {V : Type} (rs : List (Response V)) : Nat :=
  match rs with
  | [] => 0
  | r :: rest => r.records.length + recordCount rest

/-- The records the responses `rs` carry, in order, each with the echo tag of its
response: what the log of expected triples is compared with. -/
def receivedTriples {V : Type} (rs : List (Response V)) : List (Nat × Int × V) :=
  match rs with
  | [] => []
  | r :: rest => r.records.map (fun x => (r.echoTag, x.1, x.2)) ++ receivedTriples rest

/-- The records a server sends when it answers with exactly what the verifier of
scenario C expects for the records number `first`, ..., `first + count - 1` of
stream 0 (table entries represented by their indices). -/
def expectedRecords (g : Globals) (first count : Nat) : List (Int × Nat) :=
  (List.range count).map (fun j =>
    (wrapInt64 (g.FIRST_TIME + ((first + j : Nat) : Int) * g.NANOS_BETWEEN_POINTS),
      (first + j + 1) % 100))

/-- Intermediate responses for stream 0, `m` of them, each with `N` records, the
first one starting at record number `i * N`. -/
def chunkResponses (g : Globals) (N : Nat) : Nat → Nat → List (Response Nat)
  | _, 0 => []
  | i, m + 1 =>
    { echoTag := 0, statusOK := true, final := false, records := expectedRecords g (i * N) N }
      :: chunkResponses g N (i + 1) m

/-- The final response for stream 0, with three records from number `first` on. -/
def chunkFinal (g : Globals) (first : Nat) : Response Nat :=
  { echoTag := 0, statusOK := true, final := true, records := expectedRecords g first 3 }

/-- An answer to the first request of stream 0 of scenario C (credit 3): 32
intermediate responses of `2 ^ 27` records each, then a final response of 3
records, `2 ^ 32 + 3` records in all, every one as the verifier expects it. -/
def oversizedAnswer : List (Response Nat) :=
  chunkResponses scenarioC_globals 134217728 0 32
    ++ [chunkFinal scenarioC_globals ((0 + 32) * 134217728)]

/-- An answer to the first request of stream 0 of scenario C in two parts: one
intermediate response with one record, then the final response with two. -/
def twoPartAnswer : List (Response Nat) :=
  [{ echoTag := 0, statusOK := true, final := false, records := [(1000, 1)] },
   { echoTag := 0, statusOK := true, final := true, records := [(1100, 2), (1200, 3)] }]

/-- The state of the verifier of scenario C after the two responses of
`twoPartAnswer`. -/
def twoPartAfter : DemuxState Nat :=
  (validateResponses_run scenarioC_env (DemuxState.init scenarioC_globals scenarioC_channels)
    twoPartAnswer).getD (DemuxState.init scenarioC_globals scenarioC_channels)

/-! # Theorems -/

/-! ## Machine integers -/

theorem wrapInt64_eq (x : Int) (h1 : minInt64 ≤ x) (h2 : x ≤ maxInt64) : wrapInt64 x = x := by
  unfold wrapInt64; unfold minInt64 at h1; unfold maxInt64 at h2
  omega

theorem wrapInt64_add_wrap (a b : Int) : wrapInt64 (wrapInt64 a + b) = wrapInt64 (a + b) := by
  unfold wrapInt64
  omega

theorem wrapInt64_inInt64 (x : Int) : inInt64 (wrapInt64 x) := by
  unfold inInt64 wrapInt64 minInt64 maxInt64
  omega

theorem toUint32_eq (x : Int) (h1 : 0 ≤ x) (h2 : x < 2 ^ 32) : toUint32 x = x.toNat := by
  unfold toUint32
  rw [Int.emod_eq_of_lt h1 h2]

/-! ## Producers: the point count of a message on the grid -/

theorem planEntry_eq (g : Globals) (h : ProducerPre g) (k : Nat)
    (hk : (k : Int) * g.POINTS_PER_MESSAGE ≤ g.TOTAL_RECORDS) :
    planEntry g k
      = g.FIRST_TIME + (k : Int) * g.POINTS_PER_MESSAGE * g.NANOS_BETWEEN_POINTS := by
  obtain ⟨hTR, hP, _, hD, hT0, hTRD, hEnd, hPD⟩ := h
  have hP0 : (0 : Int) < g.POINTS_PER_MESSAGE := by exact_mod_cast hP
  have hk0 : (0 : Int) ≤ k := Int.natCast_nonneg k
  have hmin : minInt64 ≤ 0 := by unfold minInt64; norm_num
  have hkD : (k : Int) * g.POINTS_PER_MESSAGE * g.NANOS_BETWEEN_POINTS
      ≤ g.TOTAL_RECORDS * g.NANOS_BETWEEN_POINTS :=
    mul_le_mul_of_nonneg_right hk hD.le
  have hkD0 : 0 ≤ (k : Int) * g.POINTS_PER_MESSAGE * g.NANOS_BETWEEN_POINTS :=
    mul_nonneg (mul_nonneg hk0 hP0.le) hD.le
  have hPD0 : 0 ≤ (g.POINTS_PER_MESSAGE : Int) * g.NANOS_BETWEEN_POINTS :=
    mul_nonneg hP0.le hD.le
  unfold planEntry
  have e1 : wrapInt64 (g.NANOS_BETWEEN_POINTS * (g.POINTS_PER_MESSAGE : Int))
      = g.NANOS_BETWEEN_POINTS * (g.POINTS_PER_MESSAGE : Int) := by
    apply wrapInt64_eq <;> linarith
  rw [e1]
  have e2 : wrapInt64 (g.NANOS_BETWEEN_POINTS * (g.POINTS_PER_MESSAGE : Int) * (k : Int))
      = (k : Int) * g.POINTS_PER_MESSAGE * g.NANOS_BETWEEN_POINTS := by
    have : g.NANOS_BETWEEN_POINTS * (g.POINTS_PER_MESSAGE : Int) * (k : Int)
        = (k : Int) * g.POINTS_PER_MESSAGE * g.NANOS_BETWEEN_POINTS := by ring
    rw [this]
    apply wrapInt64_eq <;> linarith
  rw [e2]
  apply wrapInt64_eq <;> linarith

theorem endTimeOf_eq (g : Globals) (h : ProducerPre g) :
    endTimeOf g g.FIRST_TIME
      = g.FIRST_TIME + g.TOTAL_RECORDS * g.NANOS_BETWEEN_POINTS := by
  obtain ⟨hTR, hP, _, hD, hT0, hTRD, hEnd, hPD⟩ := h
  have hmin : minInt64 ≤ 0 := by unfold minInt64; norm_num
  have hTRD0 : 0 ≤ g.TOTAL_RECORDS * g.NANOS_BETWEEN_POINTS := mul_nonneg hTR.le hD.le
  unfold endTimeOf
  rw [if_neg (by linarith)]
  rw [wrapInt64_eq _ (by linarith) hTRD, wrapInt64_eq _ (by linarith) hEnd]
  unfold min64
  split_ifs with hlt
  · rfl
  · linarith

/-- The truncation rule both producers apply, in closed form: on every grid
point `k` that does not lie beyond the end time, the count is
`min(P, TOTAL_RECORDS - k * P)`. -/
theorem numPoints_core (g : Globals) (h : ProducerPre g) (k : Nat)
    (hk : (k : Int) * g.POINTS_PER_MESSAGE ≤ g.TOTAL_RECORDS) :
    (if wrapInt64 (endTimeOf g g.FIRST_TIME - planEntry g k)
        < wrapInt64 ((g.POINTS_PER_MESSAGE : Int) * g.NANOS_BETWEEN_POINTS) then
      toUint32 (Int.tdiv (wrapInt64 (endTimeOf g g.FIRST_TIME - planEntry g k))
        g.NANOS_BETWEEN_POINTS)
    else g.POINTS_PER_MESSAGE)
      = min g.POINTS_PER_MESSAGE (g.TOTAL_RECORDS - (k : Int) * g.POINTS_PER_MESSAGE).toNat := by
  rw [planEntry_eq g h k hk, endTimeOf_eq g h]
  obtain ⟨hTR, hP, hP32, hD, hT0, hTRD, hEnd, hPD⟩ := h
  have hP0 : (0 : Int) < g.POINTS_PER_MESSAGE := by exact_mod_cast hP
  have hmin : minInt64 ≤ 0 := by unfold minInt64; norm_num
  have hPD0 : 0 ≤ (g.POINTS_PER_MESSAGE : Int) * g.NANOS_BETWEEN_POINTS :=
    mul_nonneg hP0.le hD.le
  have hdiff : g.FIRST_TIME + g.TOTAL_RECORDS * g.NANOS_BETWEEN_POINTS
      - (g.FIRST_TIME + (k : Int) * g.POINTS_PER_MESSAGE * g.NANOS_BETWEEN_POINTS)
      = (g.TOTAL_RECORDS - (k : Int) * g.POINTS_PER_MESSAGE) * g.NANOS_BETWEEN_POINTS := by
    ring
  rw [hdiff]
  have hr0 : 0 ≤ g.TOTAL_RECORDS - (k : Int) * g.POINTS_PER_MESSAGE := by linarith
  have hrle : g.TOTAL_RECORDS - (k : Int) * g.POINTS_PER_MESSAGE ≤ g.TOTAL_RECORDS := by
    have : 0 ≤ (k : Int) * g.POINTS_PER_MESSAGE :=
      mul_nonneg (Int.natCast_nonneg k) hP0.le
    linarith
  have hrD0 : 0 ≤ (g.TOTAL_RECORDS - (k : Int) * g.POINTS_PER_MESSAGE)
      * g.NANOS_BETWEEN_POINTS := mul_nonneg hr0 hD.le
  have hrD : (g.TOTAL_RECORDS - (k : Int) * g.POINTS_PER_MESSAGE) * g.NANOS_BETWEEN_POINTS
      ≤ g.TOTAL_RECORDS * g.NANOS_BETWEEN_POINTS := mul_le_mul_of_nonneg_right hrle hD.le
  rw [wrapInt64_eq _ (by linarith) (by linarith), wrapInt64_eq _ (by linarith) hPD]
  rw [Int.mul_tdiv_cancel _ hD.ne.symm]
  by_cases hlt : g.TOTAL_RECORDS - (k : Int) * g.POINTS_PER_MESSAGE < g.POINTS_PER_MESSAGE
  · rw [if_pos (mul_lt_mul_of_pos_right hlt hD)]
    have h32 : g.TOTAL_RECORDS - (k : Int) * g.POINTS_PER_MESSAGE < 2 ^ 32 := by
      have : (g.POINTS_PER_MESSAGE : Int) < 2 ^ 32 := by exact_mod_cast hP32
      linarith
    rw [toUint32_eq _ hr0 h32]
    omega
  · rw [if_neg (by
      intro hc
      exact hlt (lt_of_mul_lt_mul_right hc hD.le))]
    omega

theorem insert_numPoints_grid (g : Globals) (h : ProducerPre g) (k : Nat)
    (hk : (k : Int) * g.POINTS_PER_MESSAGE ≤ g.TOTAL_RECORDS) :
    insert_numPoints g (endTimeOf g g.FIRST_TIME) (planEntry g k)
      = min g.POINTS_PER_MESSAGE (g.TOTAL_RECORDS - (k : Int) * g.POINTS_PER_MESSAGE).toNat :=
  numPoints_core g h k hk

theorem query_numPoints_grid (g : Globals) (h : ProducerPre g) (k : Nat)
    (hk : (k : Int) * g.POINTS_PER_MESSAGE ≤ g.TOTAL_RECORDS) :
    query_numPoints g (endTimeOf g g.FIRST_TIME) (planEntry g k)
      = min g.POINTS_PER_MESSAGE (g.TOTAL_RECORDS - (k : Int) * g.POINTS_PER_MESSAGE).toNat :=
  numPoints_core g h k hk

theorem insert_loop_eq_map (g : Globals) (endTime : Int) (l : List Int) :
    insert_loop g endTime l = l.map (fun t => ⟨t, insert_numPoints g endTime t⟩) := by
  induction l with
  | nil => rfl
  | cons t rest ih => simp [insert_loop, ih]

theorem query_loop_eq_map (g : Globals) (endTime : Int) (l : List Int) :
    query_loop g endTime l = l.map (fun t => ⟨t, query_numPoints g endTime t⟩) := by
  induction l with
  | nil => rfl
  | cons t rest ih => simp [query_loop, ih]

/-- The two producers send the same sequence of (start time, point count). -/
theorem insert_data_eq_query_data (g : Globals) (start : Int) (permutation : List Int)
    (numMessages : Nat) :
    insert_data g start permutation numMessages = query_data g start permutation numMessages := by
  unfold insert_data query_data
  rw [insert_loop_eq_map, query_loop_eq_map]
  rfl

/-- The message a producer sends in iteration `j` depends only on
`permutation[j]`. -/
theorem insert_data_getElem? (g : Globals) (start : Int) (permutation : List Int)
    (numMessages j : Nat) (t : Int) (hj : j < numMessages) (ht : permutation[j]? = some t) :
    (insert_data g start permutation numMessages)[j]?
      = some ⟨t, insert_numPoints g (endTimeOf g start) t⟩ := by
  unfold insert_data
  rw [insert_loop_eq_map, List.getElem?_map, List.getElem?_take_of_lt hj, ht]
  rfl

theorem planner_length (g : Globals) (x : List Nat) : (planner g x).length = perm_size g := by
  unfold planner
  split_ifs <;> simp

theorem planner_sequential_getElem? (g : Globals) (x : List Nat) (h0 : g.PERM_SEED = 0)
    (k : Nat) (hk : k < perm_size g) : (planner g x)[k]? = some (planEntry g (k : Int)) := by
  unfold planner
  rw [if_pos h0, List.getElem?_map, List.getElem?_range hk]
  rfl

theorem map_getD_range (x : List Nat) :
    (List.range x.length).map (fun f => x.getD f 0) = x := by
  apply List.ext_getElem?
  intro i
  by_cases hi : i < x.length
  · rw [List.getElem?_map, List.getElem?_range hi]
    simp [List.getD_eq_getElem?_getD, List.getElem?_eq_getElem hi]
  · rw [List.getElem?_eq_none (by simpa using hi), List.getElem?_eq_none (by simpa using hi)]

/-- With the permutation `x` of the RNG, the planner lists the grid points in the
order of `x`. -/
theorem planner_shuffled (g : Globals) (x : List Nat) (h0 : g.PERM_SEED ≠ 0)
    (hx : x.length = perm_size g) :
    planner g x = x.map (fun (v : Nat) => planEntry g (v : Int)) := by
  unfold planner
  rw [if_neg h0, ← hx]
  conv_rhs => rw [← map_getD_range x]
  rw [List.map_map]
  rfl

theorem sum_min_range (P T : Nat) (n : Nat) (h : n = 0 ∨ (n - 1) * P ≤ T) :
    ((List.range n).map (fun k => min P (T - k * P))).sum = min (n * P) T := by
  induction n with
  | zero => simp
  | succ m ih =>
    rw [List.sum_range_succ]
    have hm : m * P ≤ T := by
      rcases h with h | h
      · omega
      · simpa using h
    have hih : m = 0 ∨ (m - 1) * P ≤ T := by
      rcases Nat.eq_zero_or_pos m with h0 | hpos
      · exact Or.inl h0
      · right
        have : (m - 1) * P ≤ m * P := Nat.mul_le_mul_right P (by omega)
        omega
    rw [ih hih, Nat.min_eq_left hm, Nat.succ_mul]
    omega

theorem totalPoints_insert_loop_grid (g : Globals) (h : ProducerPre g) (l : List Nat)
    (hl : ∀ k ∈ l, k * g.POINTS_PER_MESSAGE ≤ g.TOTAL_RECORDS.toNat) :
    totalPoints (insert_loop g (endTimeOf g g.FIRST_TIME)
        (l.map (fun (k : Nat) => planEntry g (k : Int))))
      = (l.map (fun k => min g.POINTS_PER_MESSAGE
          (g.TOTAL_RECORDS.toNat - k * g.POINTS_PER_MESSAGE))).sum := by
  unfold totalPoints
  rw [insert_loop_eq_map, List.map_map, List.map_map]
  congr 1
  apply List.map_congr_left
  intro k hk
  have hTR : 0 < g.TOTAL_RECORDS := h.1
  have hk1 : ((k * g.POINTS_PER_MESSAGE : Nat) : Int) ≤ g.TOTAL_RECORDS := by
    have := hl k hk
    omega
  have hk2 : (k : Int) * g.POINTS_PER_MESSAGE ≤ g.TOTAL_RECORDS := by
    rw [← Nat.cast_mul]; exact hk1
  show insert_numPoints g (endTimeOf g g.FIRST_TIME) (planEntry g (k : Int)) = _
  rw [insert_numPoints_grid g h k hk2, ← Nat.cast_mul]
  congr 1
  omega

/-- Whichever policy the planner follows, the point counts of the messages a
producer sends add up to `min(perm_size * P, TOTAL_RECORDS)`, as long as the last
grid point does not lie beyond the end time. -/
theorem totalPoints_planner (g : Globals) (h : ProducerPre g) (x : List Nat)
    (hx : g.PERM_SEED ≠ 0 → x.Perm (List.range (perm_size g)))
    (hn : perm_size g = 0 ∨ (perm_size g - 1) * g.POINTS_PER_MESSAGE ≤ g.TOTAL_RECORDS.toNat) :
    totalPoints (insert_data g g.FIRST_TIME (planner g x) (perm_size g))
      = min (perm_size g * g.POINTS_PER_MESSAGE) g.TOTAL_RECORDS.toNat := by
  have hmem : ∀ k ∈ List.range (perm_size g),
      k * g.POINTS_PER_MESSAGE ≤ g.TOTAL_RECORDS.toNat := by
    intro k hk
    rw [List.mem_range] at hk
    rcases hn with hn | hn
    · omega
    · have : k * g.POINTS_PER_MESSAGE ≤ (perm_size g - 1) * g.POINTS_PER_MESSAGE :=
        Nat.mul_le_mul_right _ (by omega)
      omega
  unfold insert_data
  rw [List.take_of_length_le (by rw [planner_length])]
  by_cases h0 : g.PERM_SEED = 0
  · have hp : planner g x
        = (List.range (perm_size g)).map (fun (k : Nat) => planEntry g (k : Int)) := by
      unfold planner; rw [if_pos h0]
    rw [hp, totalPoints_insert_loop_grid g h _ hmem, sum_min_range _ _ _ hn]
  · have hperm := hx h0
    rw [planner_shuffled g x h0 (by rw [hperm.length_eq, List.length_range]),
      totalPoints_insert_loop_grid g h x (fun k hk => hmem k (hperm.mem_iff.mp hk)),
      (hperm.map _).sum_eq, sum_min_range _ _ _ hn]

/-- C1, evaluated at an accepted configuration without `int64` overflow
(`TOTAL_RECORDS = 39040792987637564`, `POINTS_PER_MESSAGE = 3180395815`,
`NANOS_BETWEEN_POINTS = 1`, `FIRST_TIME = 0`, `PERM_SEED = 0`): the planner makes
`perm_size = 12275452` entries, and the message at grid index `12275451`, whose
start time lies one step beyond the end time, carries `4294967295` points in
`insert_data` and in `query_data`, where `min(P, TOTAL_RECORDS - k * P)` is `-1`. -/
theorem overcount_last_message_wraps :
    main_config false (rawOf overCountGlobals 1) = ConfigOutcome.accepted overCountGlobals 1
      ∧ ProducerPre overCountGlobals
      ∧ perm_size overCountGlobals = 12275452
      ∧ ceilDiv overCountGlobals.TOTAL_RECORDS.toNat overCountGlobals.POINTS_PER_MESSAGE
          = 12275451
      ∧ (planner overCountGlobals [])[12275451]? = some 39040792987637565
      ∧ (insert_data overCountGlobals overCountGlobals.FIRST_TIME (planner overCountGlobals [])
            (perm_size overCountGlobals))[12275451]?
          = some ⟨39040792987637565, 4294967295⟩
      ∧ (query_data overCountGlobals overCountGlobals.FIRST_TIME (planner overCountGlobals [])
            (perm_size overCountGlobals))[12275451]?
          = some ⟨39040792987637565, 4294967295⟩
      ∧ min ((overCountGlobals.POINTS_PER_MESSAGE : Nat) : Int)
            (overCountGlobals.TOTAL_RECORDS - 12275451 * overCountGlobals.POINTS_PER_MESSAGE)
          = -1 := by
  have hps : perm_size overCountGlobals = 12275452 := by decide
  have hlt : 12275451 < perm_size overCountGlobals := by rw [hps]; decide
  have hplan : (planner overCountGlobals [])[12275451]? = some 39040792987637565 := by
    rw [planner_sequential_getElem? overCountGlobals [] rfl 12275451 hlt]
    decide
  have hins := insert_data_getElem? overCountGlobals overCountGlobals.FIRST_TIME
    (planner overCountGlobals []) (perm_size overCountGlobals) 12275451 39040792987637565
    hlt hplan
  have hcount : insert_numPoints overCountGlobals
      (endTimeOf overCountGlobals overCountGlobals.FIRST_TIME) 39040792987637565
      = 4294967295 := by decide
  rw [hcount] at hins
  refine ⟨by decide, by unfold ProducerPre; decide, hps, by decide, hplan, hins, ?_,
    by decide⟩
  rw [← insert_data_eq_query_data]
  exact hins

/-- C2, evaluated at an accepted configuration without `int64` overflow
(`TOTAL_RECORDS = 2 ^ 53 + 1`, `POINTS_PER_MESSAGE = 2 ^ 31`,
`NANOS_BETWEEN_POINTS = 1`, `FIRST_TIME = 0`, `PERM_SEED = 0`): the planner makes
`4194304` start times where `ceil(TOTAL_RECORDS / POINTS_PER_MESSAGE)` is
`4194305`, and the point counts of the messages sent add up to `2 ^ 53`, one
short of `TOTAL_RECORDS`. -/
theorem undercount_total_short :
    main_config false (rawOf underCountGlobals 1) = ConfigOutcome.accepted underCountGlobals 1
      ∧ ProducerPre underCountGlobals
      ∧ (planner underCountGlobals []).length = 4194304
      ∧ ceilDiv underCountGlobals.TOTAL_RECORDS.toNat underCountGlobals.POINTS_PER_MESSAGE
          = 4194305
      ∧ totalPoints (insert_data underCountGlobals underCountGlobals.FIRST_TIME
            (planner underCountGlobals []) (perm_size underCountGlobals))
          = 9007199254740992
      ∧ underCountGlobals.TOTAL_RECORDS = 9007199254740993 := by
  have hps : perm_size underCountGlobals = 4194304 := by decide
  have hpre : ProducerPre underCountGlobals := by unfold ProducerPre; decide
  refine ⟨by decide, hpre, by rw [planner_length, hps], by decide, ?_, rfl⟩
  rw [totalPoints_planner underCountGlobals hpre [] (fun h => absurd rfl h)
    (Or.inr (by rw [hps]; decide)), hps]
  decide

/-- On every grid point `k` with `k * P ≤ TOTAL_RECORDS`, wherever the planner or
the RNG has put it in the send order (`permutation[j]`), both producers send
`min(P, TOTAL_RECORDS - k * P)` points. -/
theorem grid_message_count (g : Globals) (h : ProducerPre g) (permutation : List Int)
    (numMessages j k : Nat) (hj : j < numMessages)
    (hk : (k : Int) * g.POINTS_PER_MESSAGE ≤ g.TOTAL_RECORDS)
    (hperm : permutation[j]? = some (planEntry g k)) :
    (insert_data g g.FIRST_TIME permutation numMessages)[j]?
        = some ⟨g.FIRST_TIME + (k : Int) * g.POINTS_PER_MESSAGE * g.NANOS_BETWEEN_POINTS,
            min g.POINTS_PER_MESSAGE
              (g.TOTAL_RECORDS - (k : Int) * g.POINTS_PER_MESSAGE).toNat⟩
      ∧ (query_data g g.FIRST_TIME permutation numMessages)[j]?
        = (insert_data g g.FIRST_TIME permutation numMessages)[j]? := by
  refine ⟨?_, by rw [insert_data_eq_query_data]⟩
  rw [insert_data_getElem? g g.FIRST_TIME permutation numMessages j _ hj hperm,
    insert_numPoints_grid g h k hk, planEntry_eq g h k hk]

/-! ## Sharding -/

theorem getServer_eq (NUM_SERVERS : Nat) (hNS : 0 < NUM_SERVERS) (uuid : List (Fin 256))
    (hu : uuid ≠ []) : getServer NUM_SERVERS uuid = some (firstByte uuid % NUM_SERVERS) := by
  cases uuid with
  | nil => exact absurd rfl hu
  | cons b rest =>
    unfold getServer firstByte
    simp [Nat.pos_iff_ne_zero.mp hNS]

theorem specAssignment_last (NUM_SERVERS TCP_CONNECTIONS : Nat)
    (pre rest : List (List (Fin 256))) (u : List (Fin 256)) :
    specAssignment NUM_SERVERS TCP_CONNECTIONS (pre ++ u :: rest) pre.length
      = ⟨firstByte u % NUM_SERVERS,
          (pre.countP (fun v => firstByte v % NUM_SERVERS = firstByte u % NUM_SERVERS))
            % TCP_CONNECTIONS⟩ := by
  have hget : (pre ++ u :: rest).getD pre.length [] = u := by
    rw [List.getD_eq_getElem?_getD, List.getElem?_append_right (le_refl _), Nat.sub_self]
    simp
  have htake : (pre ++ u :: rest).take pre.length = pre := by
    rw [List.take_append_of_le_length (le_refl _), List.take_length]
  unfold specAssignment
  simp only [hget, htake]

/-- The insert/query-mode loop, started after the streams `pre`, assigns the
streams `rest` as the specification says. -/
theorem send_assign_spec (NUM_SERVERS TCP_CONNECTIONS : Nat) (hNS : 0 < NUM_SERVERS)
    (hTCP : 0 < TCP_CONNECTIONS) (rest : List (List (Fin 256))) :
    ∀ (pre : List (List (Fin 256))) (a : Assignment),
      (∀ u ∈ rest, u ≠ []) →
      a.spawned = (List.range pre.length).map
        (specAssignment NUM_SERVERS TCP_CONNECTIONS (pre ++ rest)) →
      (∀ s, a.streamCounts s = pre.countP (fun v => firstByte v % NUM_SERVERS = s)) →
      ∃ a1, send_assign NUM_SERVERS TCP_CONNECTIONS a rest = some a1
        ∧ a1.spawned = (List.range (pre ++ rest).length).map
            (specAssignment NUM_SERVERS TCP_CONNECTIONS (pre ++ rest)) := by
  induction rest with
  | nil =>
    intro pre a _ hsp _
    exact ⟨a, rfl, by simpa using hsp⟩
  | cons u rest ih =>
    intro pre a hu hsp hcount
    have hu0 : u ≠ [] := hu u (List.mem_cons_self _ _)
    unfold send_assign send_assign_step
    rw [getServer_eq NUM_SERVERS hNS u hu0]
    simp only [if_neg (Nat.pos_iff_ne_zero.mp hTCP)]
    have key := ih (pre ++ [u])
      { streamCounts := Function.update a.streamCounts (firstByte u % NUM_SERVERS)
          (a.streamCounts (firstByte u % NUM_SERVERS) + 1)
        usingConn := setEntry a.usingConn (firstByte u % NUM_SERVERS)
          (a.streamCounts (firstByte u % NUM_SERVERS) % TCP_CONNECTIONS)
          (a.usingConn (firstByte u % NUM_SERVERS)
            (a.streamCounts (firstByte u % NUM_SERVERS) % TCP_CONNECTIONS) + 1)
        spawned := a.spawned ++ [⟨firstByte u % NUM_SERVERS,
          a.streamCounts (firstByte u % NUM_SERVERS) % TCP_CONNECTIONS⟩] }
      (fun v hv => hu v (List.mem_cons_of_mem _ hv))
    simp only [List.append_assoc, List.singleton_append] at key
    apply key
    · rw [List.length_append, List.length_singleton, List.range_succ, List.map_append,
        ← hsp, List.map_singleton, specAssignment_last, hcount]
    · intro s
      rw [List.countP_append]
      by_cases hs : s = firstByte u % NUM_SERVERS
      · subst hs
        simp [hcount]
      · rw [Function.update_noteq hs, hcount]
        simp [List.countP_cons, Ne.symm hs]

/-- The delete-mode loop and the insert/query-mode loop hand out the same
`ConnectionID`s when they start from the same `spawned` and `streamCounts`. -/
theorem delete_assign_eq_send_assign (NUM_SERVERS TCP_CONNECTIONS : Nat)
    (uuids : List (List (Fin 256))) :
    ∀ (a d : Assignment), d.spawned = a.spawned → d.streamCounts = a.streamCounts →
      (delete_assign NUM_SERVERS TCP_CONNECTIONS d uuids).map Assignment.spawned
        = (send_assign NUM_SERVERS TCP_CONNECTIONS a uuids).map Assignment.spawned := by
  induction uuids with
  | nil =>
    intro a d hsp _
    simp [delete_assign, send_assign, hsp]
  | cons u rest ih =>
    intro a d hsp hsc
    unfold delete_assign send_assign delete_assign_step send_assign_step
    cases hg : getServer NUM_SERVERS u with
    | none => rfl
    | some serverIndex =>
      by_cases hT : TCP_CONNECTIONS = 0
      · simp [hT]
      · simp only [if_neg hT]
        apply ih
        · simp [hsp, hsc]
        · simp [hsc]

/-- The refcount table after the insert/query-mode loop: every entry has grown
by the number of streams the loop assigned to that connection. -/
theorem send_assign_usingConn (NUM_SERVERS TCP_CONNECTIONS : Nat)
    (uuids : List (List (Fin 256))) :
    ∀ (a a1 : Assignment), send_assign NUM_SERVERS TCP_CONNECTIONS a uuids = some a1 →
      ∃ new : List ConnectionID, a1.spawned = a.spawned ++ new
        ∧ ∀ s c, a1.usingConn s c = a.usingConn s c + (new.count ⟨s, c⟩ : Nat) := by
  induction uuids with
  | nil =>
    intro a a1 h
    simp only [send_assign, Option.some.injEq] at h
    subst h
    exact ⟨[], by simp, by simp⟩
  | cons u rest ih =>
    intro a a1 h
    unfold send_assign send_assign_step at h
    cases hg : getServer NUM_SERVERS u with
    | none => simp [hg] at h
    | some serverIndex =>
      by_cases hT : TCP_CONNECTIONS = 0
      · simp [hg, hT] at h
      · simp only [hg, if_neg hT] at h
        obtain ⟨new, hsp, hu⟩ := ih _ a1 h
        refine ⟨⟨serverIndex, a.streamCounts serverIndex % TCP_CONNECTIONS⟩ :: new, ?_, ?_⟩
        · simpa using hsp
        · intro s c
          rw [hu s c]
          unfold setEntry
          by_cases hsc : s = serverIndex ∧ c = a.streamCounts serverIndex % TCP_CONNECTIONS
          · obtain ⟨h1, h2⟩ := hsc
            subst h1 h2
            simp [List.count_cons]
            ring
          · have hne : (⟨s, c⟩ : ConnectionID)
                ≠ ⟨serverIndex, a.streamCounts serverIndex % TCP_CONNECTIONS⟩ := by
              intro heq
              injection heq with e1 e2
              exact hsc ⟨e1, e2⟩
            simp only [if_neg hsc]
            rw [List.count_cons_of_ne hne]

theorem delete_assign_usingConn (NUM_SERVERS TCP_CONNECTIONS : Nat)
    (uuids : List (List (Fin 256))) :
    ∀ (a a1 : Assignment), delete_assign NUM_SERVERS TCP_CONNECTIONS a uuids = some a1 →
      a1.usingConn = a.usingConn := by
  induction uuids with
  | nil =>
    intro a a1 h
    simp only [delete_assign, Option.some.injEq] at h
    subst h
    rfl
  | cons u rest ih =>
    intro a a1 h
    unfold delete_assign delete_assign_step at h
    cases hg : getServer NUM_SERVERS u with
    | none => simp [hg] at h
    | some serverIndex =>
      by_cases hT : TCP_CONNECTIONS = 0
      · simp [hg, hT] at h
      · simp only [hg, if_neg hT] at h
        exact (ih _ a1 h).trans rfl

/-- C3: for every list of stream UUIDs (none empty), every `NUM_SERVERS > 0` and
every `TCP_CONNECTIONS > 0`, both assignment loops of the driver run without a
panic and hand stream `s` the connection the specification names: server
`uuids[s][0] mod NUM_SERVERS`, connection index (number of earlier streams on the
same server) `mod TCP_CONNECTIONS`.  The result is a function of the UUID list and
the two counts, and the delete path and the insert/query path agree. -/
theorem stream_sharding (NUM_SERVERS TCP_CONNECTIONS : Nat) (hNS : 0 < NUM_SERVERS)
    (hTCP : 0 < TCP_CONNECTIONS) (uuids : List (List (Fin 256)))
    (hu : ∀ u ∈ uuids, u ≠ []) :
    ∃ a d, send_assign NUM_SERVERS TCP_CONNECTIONS Assignment.init uuids = some a
      ∧ delete_assign NUM_SERVERS TCP_CONNECTIONS Assignment.init uuids = some d
      ∧ d.spawned = a.spawned
      ∧ a.spawned = (List.range uuids.length).map
          (specAssignment NUM_SERVERS TCP_CONNECTIONS uuids) := by
  obtain ⟨a, ha, hsp⟩ := send_assign_spec NUM_SERVERS TCP_CONNECTIONS hNS hTCP uuids []
    Assignment.init hu (by simp [Assignment.init]) (by simp [Assignment.init])
  have hd := delete_assign_eq_send_assign NUM_SERVERS TCP_CONNECTIONS uuids
    Assignment.init Assignment.init rfl rfl
  rw [ha] at hd
  cases hdel : delete_assign NUM_SERVERS TCP_CONNECTIONS Assignment.init uuids with
  | none => rw [hdel] at hd; simp at hd
  | some d =>
    rw [hdel] at hd
    simp only [Option.map_some', Option.some.injEq] at hd
    exact ⟨a, d, ha, rfl, hd, by simpa using hsp⟩

theorem stream_sharding_witness :
    (0 < 2 ∧ 0 < 1 ∧ ∀ u ∈ scenarioE_uuids, u ≠ [])
      ∧ ∃ a d, send_assign 2 1 Assignment.init scenarioE_uuids = some a
        ∧ delete_assign 2 1 Assignment.init scenarioE_uuids = some d
        ∧ d.spawned = a.spawned
        ∧ a.spawned = (List.range scenarioE_uuids.length).map
            (specAssignment 2 1 scenarioE_uuids) :=
  ⟨⟨by decide, by decide, by decide⟩,
    stream_sharding 2 1 (by decide) (by decide) scenarioE_uuids (by decide)⟩

/-! ## The done-signal loop -/

theorem lastOccurrences_mem (sigs : List ConnectionID) :
    ∀ (k j : Nat) (c : ConnectionID),
      (j, c) ∈ lastOccurrences k sigs
        ↔ k ≤ j ∧ sigs[j - k]? = some c ∧ c ∉ sigs.drop (j - k + 1) := by
  induction sigs with
  | nil =>
    intro k j c
    simp [lastOccurrences]
  | cons r rest ih =>
    intro k j c
    have hstep : (j, c) ∈ lastOccurrences (k + 1) rest
        ↔ k < j ∧ (r :: rest)[j - k]? = some c ∧ c ∉ (r :: rest).drop (j - k + 1) := by
      rw [ih (k + 1) j c]
      constructor
      · rintro ⟨h1, h2, h3⟩
        have e : j - k = (j - (k + 1)) + 1 := by omega
        refine ⟨by omega, ?_, ?_⟩
        · rw [e, List.getElem?_cons_succ]; exact h2
        · rw [e, List.drop_succ_cons]; exact h3
      · rintro ⟨h1, h2, h3⟩
        have e : j - k = (j - (k + 1)) + 1 := by omega
        rw [e, List.getElem?_cons_succ] at h2
        rw [e, List.drop_succ_cons] at h3
        exact ⟨by omega, h2, h3⟩
    have hhead : (j = k ∧ c = r ∧ r ∉ rest)
        ↔ k ≤ j ∧ ¬ k < j ∧ (r :: rest)[j - k]? = some c
            ∧ c ∉ (r :: rest).drop (j - k + 1) := by
      constructor
      · rintro ⟨h1, h2, h3⟩
        subst h1 h2
        simp [h3]
      · rintro ⟨h1, h2, h3, h4⟩
        have e : j = k := by omega
        subst e
        simp only [Nat.sub_self, List.getElem?_cons_zero, Option.some.injEq] at h3
        subst h3
        simp only [Nat.sub_self, Nat.zero_add, List.drop_succ_cons, List.drop_zero] at h4
        exact ⟨rfl, rfl, h4⟩
    unfold lastOccurrences
    by_cases hr : r ∈ rest
    · rw [if_pos hr, hstep]
      constructor
      · rintro ⟨h1, h2, h3⟩
        exact ⟨by omega, h2, h3⟩
      · rintro ⟨h1, h2, h3⟩
        by_cases hlt : k < j
        · exact ⟨hlt, h2, h3⟩
        · exact absurd hr (hhead.mpr ⟨h1, hlt, h2, h3⟩).2.2
    · rw [if_neg hr, List.mem_cons, hstep]
      constructor
      · rintro (h | ⟨h1, h2, h3⟩)
        · injection h with e1 e2
          obtain ⟨h1, _, h3, h4⟩ := hhead.mp ⟨e1, e2, hr⟩
          exact ⟨h1, h3, h4⟩
        · exact ⟨by omega, h2, h3⟩
      · rintro ⟨h1, h2, h3⟩
        by_cases hlt : k < j
        · exact Or.inr ⟨hlt, h2, h3⟩
        · obtain ⟨e1, e2, _⟩ := hhead.mpr ⟨h1, hlt, h2, h3⟩
          left
          rw [e1, e2]

theorem lastOccurrences_count (sigs : List ConnectionID) :
    ∀ (k : Nat) (c : ConnectionID),
      ((lastOccurrences k sigs).map Prod.snd).count c = if c ∈ sigs then 1 else 0 := by
  induction sigs with
  | nil =>
    intro k c
    simp [lastOccurrences]
  | cons r rest ih =>
    intro k c
    unfold lastOccurrences
    by_cases hr : r ∈ rest
    · rw [if_pos hr, ih (k + 1) c]
      by_cases hc : c ∈ rest
      · simp [hc]
      · have hne : c ≠ r := fun h => hc (h ▸ hr)
        simp [hc, hne]
    · rw [if_neg hr, List.map_cons, List.count_cons, ih (k + 1) c]
      by_cases hcr : c = r
      · subst hcr
        simp [hr]
      · have hrc : ¬ r = c := fun h => hcr h.symm
        by_cases hc : c ∈ rest
        · simp [hc, hcr, hrc]
        · simp [hc, hcr, hrc]

theorem done_step_usingConn (k : Nat) (d : DoneState) (r : ConnectionID) :
    (done_step k d r).usingConn
      = setEntry d.usingConn r.serverIndex r.connectionIndex
          (d.usingConn r.serverIndex r.connectionIndex - 1) := by
  unfold done_step
  dsimp only
  split_ifs <;> rfl

theorem lastOccurrences_cons (k : Nat) (r : ConnectionID) (rest : List ConnectionID) :
    lastOccurrences k (r :: rest)
      = if r ∈ rest then lastOccurrences (k + 1) rest
        else (k, r) :: lastOccurrences (k + 1) rest := rfl

theorem done_step_closed (k : Nat) (d : DoneState) (r : ConnectionID) :
    (done_step k d r).closed
      = if d.usingConn r.serverIndex r.connectionIndex - 1 = 0 then d.closed ++ [(k, r)]
        else d.closed := by
  unfold done_step setEntry
  simp only [and_self, if_true]
  split_ifs <;> rfl

/-- When every refcount equals the number of signals still to come for its
connection, the loop closes exactly at the last signal of each connection and
leaves every refcount at zero. -/
theorem done_loop_spec (signals : List ConnectionID) :
    ∀ (k : Nat) (d : DoneState),
      (∀ c : ConnectionID,
        d.usingConn c.serverIndex c.connectionIndex = (signals.count c : Nat)) →
      (done_loop k d signals).closed = d.closed ++ lastOccurrences k signals
        ∧ ∀ s c, (done_loop k d signals).usingConn s c = 0 := by
  induction signals with
  | nil =>
    intro k d h
    refine ⟨by simp [done_loop, lastOccurrences], ?_⟩
    intro s c
    simpa [done_loop] using h ⟨s, c⟩
  | cons r rest ih =>
    intro k d h
    have hr := h r
    rw [List.count_cons_self] at hr
    have hinv : ∀ c : ConnectionID,
        (done_step k d r).usingConn c.serverIndex c.connectionIndex
          = (rest.count c : Nat) := by
      intro c
      rw [done_step_usingConn]
      unfold setEntry
      by_cases hc : c.serverIndex = r.serverIndex ∧ c.connectionIndex = r.connectionIndex
      · have hcr : c = r := by
          cases c; cases r; simp only [ConnectionID.mk.injEq]; exact hc
        subst hcr
        simp only [and_self, if_true, hr]
        push_cast
        ring
      · have hcr : c ≠ r := by
          intro e; subst e; exact hc ⟨rfl, rfl⟩
        rw [if_neg hc, h c, List.count_cons_of_ne hcr]
    obtain ⟨hcl, hz⟩ := ih (k + 1) (done_step k d r) hinv
    refine ⟨?_, hz⟩
    show (done_loop (k + 1) (done_step k d r) rest).closed = _
    rw [hcl, done_step_closed, hr, lastOccurrences_cons]
    by_cases hmem : r ∈ rest
    · have hpos : 0 < rest.count r := List.count_pos_iff.mpr hmem
      rw [if_pos hmem, if_neg (by push_cast; omega)]
    · have hzero : rest.count r = 0 := List.count_eq_zero.mpr hmem
      rw [if_neg hmem, if_pos (by rw [hzero]; simp)]
      simp

/-- C4: in insert, query and verify mode (the modes that run the assignment loop
`send_assign`), for every order `signals` in which the streams deliver their
done-signals, the refcount loop calls `Close()` in iteration `k` on connection
`c` exactly when the `k`-th signal is the last one of `c`; hence every
connection with a stream is closed exactly once, a connection without a stream
never, and every refcount is zero when the loop ends. -/
theorem refcount_closes_at_last_signal (NUM_SERVERS TCP_CONNECTIONS : Nat)
    (uuids : List (List (Fin 256))) (a : Assignment)
    (ha : send_assign NUM_SERVERS TCP_CONNECTIONS Assignment.init uuids = some a)
    (signals : List ConnectionID) (hperm : signals.Perm a.spawned) :
    (∀ k c, (k, c) ∈ (done_loop 0 ⟨a.usingConn, []⟩ signals).closed
        ↔ signals[k]? = some c ∧ c ∉ signals.drop (k + 1))
      ∧ (∀ c, (((done_loop 0 ⟨a.usingConn, []⟩ signals).closed).map Prod.snd).count c
          = if c ∈ a.spawned then 1 else 0)
      ∧ (∀ s c, (done_loop 0 ⟨a.usingConn, []⟩ signals).usingConn s c = 0) := by
  obtain ⟨new, hsp, hu⟩ := send_assign_usingConn NUM_SERVERS TCP_CONNECTIONS uuids
    Assignment.init a ha
  have hnew : a.spawned = new := by simpa [Assignment.init] using hsp
  have hinv : ∀ c : ConnectionID,
      (DoneState.mk a.usingConn []).usingConn c.serverIndex c.connectionIndex
        = (signals.count c : Nat) := by
    intro c
    show a.usingConn c.serverIndex c.connectionIndex = _
    rw [hu, hperm.count_eq, hnew]
    simp [Assignment.init]
  obtain ⟨hcl, hz⟩ := done_loop_spec signals 0 ⟨a.usingConn, []⟩ hinv
  refine ⟨?_, ?_, hz⟩
  · intro k c
    rw [hcl, List.nil_append, lastOccurrences_mem]
    simp
  · intro c
    rw [hcl, List.nil_append, lastOccurrences_count]
    simp only [hperm.mem_iff]

theorem refcount_closes_at_last_signal_witness :
    (send_assign 2 1 Assignment.init scenarioE_uuids = some scenarioE_assignment
        ∧ List.Perm [(⟨0, 0⟩ : ConnectionID), ⟨0, 0⟩, ⟨1, 0⟩] scenarioE_assignment.spawned)
      ∧ (∀ k c, (k, c) ∈ (done_loop 0 ⟨scenarioE_assignment.usingConn, []⟩
              [(⟨0, 0⟩ : ConnectionID), ⟨0, 0⟩, ⟨1, 0⟩]).closed
          ↔ [(⟨0, 0⟩ : ConnectionID), ⟨0, 0⟩, ⟨1, 0⟩][k]? = some c
            ∧ c ∉ [(⟨0, 0⟩ : ConnectionID), ⟨0, 0⟩, ⟨1, 0⟩].drop (k + 1))
      ∧ (∀ c, (((done_loop 0 ⟨scenarioE_assignment.usingConn, []⟩
              [(⟨0, 0⟩ : ConnectionID), ⟨0, 0⟩, ⟨1, 0⟩]).closed).map Prod.snd).count c
          = if c ∈ scenarioE_assignment.spawned then 1 else 0)
      ∧ (∀ s c, (done_loop 0 ⟨scenarioE_assignment.usingConn, []⟩
              [(⟨0, 0⟩ : ConnectionID), ⟨0, 0⟩, ⟨1, 0⟩]).usingConn s c = 0) :=
  ⟨⟨rfl, by decide⟩,
    refcount_closes_at_last_signal 2 1 scenarioE_uuids scenarioE_assignment rfl
      [⟨0, 0⟩, ⟨0, 0⟩, ⟨1, 0⟩] (by decide)⟩

/-- In delete mode no refcount is ever positive, so the loop never finds a
refcount equal to zero after decrementing it. -/
theorem done_loop_nonpositive (signals : List ConnectionID) :
    ∀ (k : Nat) (d : DoneState), (∀ s c, d.usingConn s c ≤ 0) →
      (done_loop k d signals).closed = d.closed := by
  induction signals with
  | nil => intro k d _; rfl
  | cons r rest ih =>
    intro k d h
    show (done_loop (k + 1) (done_step k d r) rest).closed = _
    have hr := h r.serverIndex r.connectionIndex
    rw [ih (k + 1) (done_step k d r), done_step_closed, if_neg (by omega)]
    intro s c
    rw [done_step_usingConn]
    unfold setEntry
    split_ifs
    · omega
    · exact h s c

/-- In delete mode, whatever the streams and the order of their done-signals,
the done-signal loop closes no connection. -/
theorem delete_mode_closes_nothing (NUM_SERVERS TCP_CONNECTIONS : Nat)
    (uuids : List (List (Fin 256))) (d : Assignment)
    (hd : delete_assign NUM_SERVERS TCP_CONNECTIONS Assignment.init uuids = some d)
    (signals : List ConnectionID) :
    (done_loop 0 ⟨d.usingConn, []⟩ signals).closed = [] := by
  rw [done_loop_nonpositive signals 0 ⟨d.usingConn, []⟩]
  intro s c
  rw [delete_assign_usingConn NUM_SERVERS TCP_CONNECTIONS uuids Assignment.init d hd]
  simp [Assignment.init]

/-- C5, evaluated on scenario E (delete mode, three streams over two servers whose
first UUID bytes modulo 2 are 0, 1, 0, one connection per server): the streams
use connections (0,0), (1,0), (0,0); after the three done-signals the loop has
closed no connection, and the refcounts of the two connections are -2 and -1. -/
theorem delete_scenarioE_never_closes :
    (delete_assign 2 1 Assignment.init scenarioE_uuids).map Assignment.spawned
        = some [⟨0, 0⟩, ⟨1, 0⟩, ⟨0, 0⟩]
      ∧ (delete_assign 2 1 Assignment.init scenarioE_uuids).map
          (fun d => (done_loop 0 ⟨d.usingConn, []⟩ d.spawned).closed) = some []
      ∧ (delete_assign 2 1 Assignment.init scenarioE_uuids).map
          (fun d => ((done_loop 0 ⟨d.usingConn, []⟩ d.spawned).usingConn 0 0,
            (done_loop 0 ⟨d.usingConn, []⟩ d.spawned).usingConn 1 0)) = some (-2, -1) := by
  refine ⟨by decide, by decide, by decide⟩

/-! ## Configuration checks -/

/-- What the numeric checks of `main` test: `POINTS_PER_MESSAGE` is compared after
its conversion to `uint32`, so the check on it is `uint32(value) ≠ 0`. -/
theorem numericChecks_iff (c : RawConfig) :
    numericChecks c = true
      ↔ 0 < c.TOTAL_RECORDS ∧ 0 < c.TCP_CONNECTIONS ∧ toUint32 c.POINTS_PER_MESSAGE ≠ 0
        ∧ 0 < c.NANOS_BETWEEN_POINTS ∧ 0 < c.NUM_STREAMS ∧ 0 < c.MAX_CONCURRENT_MESSAGES
        ∧ 0 ≤ c.MAX_TIME_RANDOM_OFFSET ∧ c.MAX_TIME_RANDOM_OFFSET < c.NANOS_BETWEEN_POINTS
        ∧ c.MAX_TIME_RANDOM_OFFSET ≤ 2 ^ 53 := by
  unfold numericChecks
  simp only [ge_iff_le, gt_iff_lt]
  split_ifs with h1 h2 h3 h4
  · simp only [Bool.false_eq_true, false_iff]
    rintro ⟨a1, a2, a3, a4, a5, a6, _⟩
    rcases h1 with h | h | h | h | h | h <;> omega
  · simp only [Bool.false_eq_true, false_iff]
    rintro ⟨_, _, _, _, _, _, _, a8, _⟩
    omega
  · simp only [Bool.false_eq_true, false_iff]
    rintro ⟨_, _, _, _, _, _, _, _, a9⟩
    omega
  · simp only [Bool.false_eq_true, false_iff]
    rintro ⟨_, _, _, _, _, _, a7, _⟩
    omega
  · simp only [true_iff]
    simp only [not_or, not_le] at h1
    obtain ⟨a1, a2, a3, a4, a5, a6⟩ := h1
    exact ⟨a1, a2, by omega, a4, a5, a6, by omega, by omega, by omega⟩

/-- In verify mode a configuration that passes the numeric checks is turned away
by the permutation check exactly when `PERM_SEED` is not zero, whatever
`DETERMINISTIC_KV` says. -/
theorem verify_returned_iff (c : RawConfig) (h : numericChecks c = true) :
    main_config true c = ConfigOutcome.returned ↔ c.PERM_SEED ≠ 0 := by
  unfold main_config
  simp only [h]
  by_cases hp : c.PERM_SEED = 0
  · simp [hp]
  · simp [hp]

/-- C6, evaluated at a verify run with `DETERMINISTIC_KV = "true"` and
`PERM_SEED = 7` (the other keys as in scenario A): the configuration passes the
numeric checks and `main` returns on the permutation check; the same
configuration with `PERM_SEED = 0` is accepted with `DETERMINISTIC_KV` set. -/
theorem verify_deterministic_shuffle_returned :
    numericChecks (scenarioConfig 4 7 "true") = true
      ∧ main_config true (scenarioConfig 4 7 "true") = ConfigOutcome.returned
      ∧ main_config true (scenarioConfig 4 0 "true")
          = ConfigOutcome.accepted
              { TOTAL_RECORDS := 10, TCP_CONNECTIONS := 1, POINTS_PER_MESSAGE := 4,
                NANOS_BETWEEN_POINTS := 1000, NUM_SERVERS := 1, NUM_STREAMS := 1,
                FIRST_TIME := 0, RAND_SEED := 0, PERM_SEED := 0,
                MAX_TIME_RANDOM_OFFSET := 0, DETERMINISTIC_KV := true } 1 := by
  refine ⟨by decide, by decide, by decide⟩

/-- C7, evaluated at configurations whose `POINTS_PER_MESSAGE` is `-1` and
`2 ^ 32 + 1` (the other keys as in scenario A): both pass the numeric checks,
although the configured value is negative or does not fit `uint32`; the program
goes on with `POINTS_PER_MESSAGE = 4294967295` and `1`. -/
theorem numericChecks_accepts_bad_points_per_message :
    numericChecks (scenarioConfig (-1) 0 "true") = true
      ∧ ¬ specNumericRange (scenarioConfig (-1) 0 "true")
      ∧ main_config false (scenarioConfig (-1) 0 "true")
          = ConfigOutcome.accepted
              { TOTAL_RECORDS := 10, TCP_CONNECTIONS := 1, POINTS_PER_MESSAGE := 4294967295,
                NANOS_BETWEEN_POINTS := 1000, NUM_SERVERS := 1, NUM_STREAMS := 1,
                FIRST_TIME := 0, RAND_SEED := 0, PERM_SEED := 0,
                MAX_TIME_RANDOM_OFFSET := 0, DETERMINISTIC_KV := true } 2
      ∧ numericChecks (scenarioConfig 4294967297 0 "true") = true
      ∧ toUint32 (scenarioConfig 4294967297 0 "true").POINTS_PER_MESSAGE = 1 := by
  refine ⟨by decide, ?_, by decide, by decide, by decide⟩
  unfold specNumericRange
  decide

/-! ## Status codes -/

/-- An iteration of `validateResponses` that reads a response with a status other
than OK never runs to its end: it exits with code 1 unless the task had already
returned on a zero refcount or waits on an empty credit channel. -/
theorem validateResponses_nonOK {V : Type} [DecidableEq V] (env : DemuxEnv V) (numUsing : Int)
    (respErr : Bool) (r : Response V) (s : DemuxState V) (hst : r.statusOK = false) :
    (numUsing = 0 ∧ validateResponses_iter env numUsing respErr r s = IterOutcome.returned)
      ∨ (numUsing ≠ 0 ∧ r.final = true ∧ s.channels r.echoTag = [] ∧ respErr = false
          ∧ validateResponses_iter env numUsing respErr r s = IterOutcome.blocked)
      ∨ (numUsing ≠ 0
          ∧ validateResponses_iter env numUsing respErr r s = IterOutcome.exited 1) := by
  unfold validateResponses_iter
  by_cases h0 : numUsing = 0
  · left; exact ⟨h0, by rw [if_pos h0]⟩
  · rw [if_neg h0]
    by_cases he : respErr = true
    · right; right; exact ⟨h0, by rw [if_pos he]⟩
    · rw [if_neg he]
      by_cases hf : r.final = true
      · cases hch : s.channels r.echoTag with
        | nil =>
          right; left
          refine ⟨h0, hf, rfl, by simpa using he, ?_⟩
          simp [hf, hch, chanRecv]
        | cons c rest =>
          right; right
          refine ⟨h0, ?_⟩
          simp [hf, hch, chanRecv, hst]
      · right; right
        refine ⟨h0, ?_⟩
        simp [hf, hst]

/-- C9, evaluated in delete mode: when the write and the read succeed and the
response carries a status other than OK, `delete_data` prints the status and
then delivers the done-signal of its stream; it does not exit. -/
theorem delete_data_nonOK_signals (connID : ConnectionID) :
    delete_data connID false false false = TaskOutcome.signalled connID true := by
  rfl

/-! ## The in-flight window of a stream -/

theorem getElem?_of_append_eq (counts l t : List Nat) (h : counts = l ++ t) (i : Nat) (c : Nat)
    (hc : l[i]? = some c) : counts[i]? = some c := by
  have hi : i < l.length := by
    by_contra hn
    rw [List.getElem?_eq_none (by omega)] at hc
    exact absurd hc (by simp)
  rw [h, List.getElem?_append_left hi]
  exact hc

theorem tail_of_getElem? (counts l t : List Nat) (h : counts = l ++ t) (n : Nat)
    (hn : counts[l.length]? = some n) : ∃ t1, t = n :: t1 := by
  rw [h, List.getElem?_append_right (le_refl _), Nat.sub_self] at hn
  cases t with
  | nil => simp at hn
  | cons x t1 =>
    simp only [List.getElem?_cons_zero, Option.some.injEq] at hn
    exact ⟨t1, by rw [hn]⟩

theorem streamInv_init (M : Nat) (counts : List Nat) : StreamInv M counts StreamState.init := by
  unfold StreamInv StreamState.init
  refine ⟨by simp, ⟨counts, by simp⟩, ⟨counts, by simp⟩, rfl, by simp, ?_, ?_⟩
  · intro _ _; rfl
  · intro n h; simp at h

theorem streamInv_step (M : Nat) (msgs : List Message) (s s1 : StreamState)
    (hinv : StreamInv M (msgs.map Message.numPoints) s) (hstep : StreamStep M msgs s s1) :
    StreamInv M (msgs.map Message.numPoints) s1 := by
  obtain ⟨h1, ⟨t2, h2⟩, ⟨t3, h3⟩, h4, h5, h6, h7⟩ := hinv
  cases hstep with
  | enqueue m cont1 hh he hm hsend =>
    unfold chanSend at hsend
    by_cases hlt : s.cont.length < M
    · rw [if_pos hlt] at hsend
      simp only [Option.some.injEq] at hsend
      subst hsend
      have hlen := h6 he hh
      have hget : (msgs.map Message.numPoints)[(s.credits ++ s.cont).length]?
          = some m.numPoints := by
        rw [List.length_append, hlen, List.getElem?_map, hm]
        rfl
      obtain ⟨t1, ht1⟩ := tail_of_getElem? _ _ _ h2 _ hget
      unfold StreamInv
      dsimp only
      refine ⟨by simp; omega, ⟨t1, ?_⟩, ⟨t3, h3⟩, h4, ?_, ?_, ?_⟩
      · rw [h2, ht1]; simp
      · simp only [List.length_append, List.length_singleton]; omega
      · intro hc; simp at hc
      · intro n hn
        simp only [Option.some.injEq] at hn
        subst hn
        refine ⟨by simp only [List.length_append, List.length_singleton]; omega, ?_⟩
        rw [List.getElem?_map, hm]
        rfl
    · rw [if_neg hlt] at hsend
      simp at hsend
  | send n he =>
    obtain ⟨hlen, hget⟩ := h7 n he
    have hget1 : (msgs.map Message.numPoints)[s.sent.length]? = some n := by
      rw [h4]; exact hget
    obtain ⟨t1, ht1⟩ := tail_of_getElem? _ _ _ h3 _ hget1
    unfold StreamInv
    dsimp only
    refine ⟨h1, ⟨t2, h2⟩, ⟨t1, ?_⟩, ?_, ?_, ?_, ?_⟩
    · rw [h3, ht1]; simp
    · simp only [List.length_append, List.length_singleton]; omega
    · omega
    · intro _ _; omega
    · intro n1 hn1; simp at hn1
  | sendError n he =>
    unfold StreamInv
    dsimp only
    refine ⟨h1, ⟨t2, h2⟩, ⟨t3, h3⟩, h4, h5, ?_, ?_⟩
    · intro _ hh; simp at hh
    · intro n1 hn1; simp at hn1
  | finalResponse c cont1 hrecv =>
    unfold chanRecv at hrecv
    cases hcont : s.cont with
    | nil => rw [hcont] at hrecv; simp at hrecv
    | cons x rest =>
      rw [hcont] at hrecv
      simp only [Option.some.injEq, Prod.mk.injEq] at hrecv
      obtain ⟨hx, hrest⟩ := hrecv
      subst hx hrest
      rw [hcont] at h1 h2 h5 h6 h7
      simp only [List.length_cons] at h1 h5 h6 h7
      unfold StreamInv
      dsimp only
      refine ⟨by omega, ⟨t2, ?_⟩, ⟨t3, h3⟩, h4, ?_, ?_, ?_⟩
      · rw [h2]; simp
      · simp only [List.length_append, List.length_singleton]; omega
      · intro he hh
        have := h6 he hh
        simp only [List.length_append, List.length_singleton]; omega
      · intro n hn
        obtain ⟨ha, hb⟩ := h7 n hn
        exact ⟨by simp only [List.length_append, List.length_singleton]; omega, hb⟩
  | intermediateResponse => exact ⟨h1, ⟨t2, h2⟩, ⟨t3, h3⟩, h4, h5, h6, h7⟩

theorem streamInv_reachable (M : Nat) (msgs : List Message) (s : StreamState)
    (h : StreamReachable M msgs s) : StreamInv M (msgs.map Message.numPoints) s := by
  unfold StreamReachable at h
  induction h with
  | refl => exact streamInv_init M _
  | tail _ hstep ih => exact streamInv_step M msgs _ _ ih hstep

theorem verifyRecord_channels {V : Type} [DecidableEq V] (env : DemuxEnv V) (id : Nat)
    (records : List (Int × V)) :
    ∀ acc : DemuxState V × Int,
      (records.foldl (verifyRecord env id) acc).1.channels = acc.1.channels
        ∧ (records.foldl (verifyRecord env id) acc).1.points_received
            = acc.1.points_received := by
  induction records with
  | nil => intro acc; exact ⟨rfl, rfl⟩
  | cons r rest ih =>
    intro acc
    rw [List.foldl_cons]
    obtain ⟨h1, h2⟩ := ih (verifyRecord env id acc r)
    exact ⟨h1.trans rfl, h2.trans rfl⟩

/-- A response that is not final leaves every credit channel as it was. -/
theorem validateResponses_intermediate {V : Type} [DecidableEq V] (env : DemuxEnv V)
    (numUsing : Int) (respErr : Bool) (r : Response V) (d d1 : DemuxState V)
    (hf : r.final = false)
    (h : validateResponses_iter env numUsing respErr r d = IterOutcome.continued d1) :
    d1.channels = d.channels := by
  unfold validateResponses_iter at h
  by_cases h0 : numUsing = 0
  · simp [h0] at h
  by_cases he : respErr = true
  · simp [h0, he] at h
  by_cases hs : r.statusOK = false
  · simp [h0, he, hf, hs] at h
  by_cases hv : env.VERIFY_RESPONSES = false
  · simp only [h0, he, hf, hs, hv, if_false, if_true, Bool.false_eq_true,
      Bool.true_eq_false, IterOutcome.continued.injEq] at h
    rw [← h]
    exact Function.update_eq_self _ _
  · simp only [h0, he, hf, hs, hv, if_false, if_true, Bool.false_eq_true,
      Bool.true_eq_false, IterOutcome.continued.injEq] at h
    rw [← h]
    show (List.foldl (verifyRecord env r.echoTag) _ _).1.channels = _
    rw [(verifyRecord_channels env r.echoTag _ _).1]
    exact Function.update_eq_self _ _

/-- A final response takes the oldest credit off the channel of its stream, adds
it to `points_received`, and leaves the other channels as they were. -/
theorem validateResponses_final {V : Type} [DecidableEq V] (env : DemuxEnv V)
    (numUsing : Int) (respErr : Bool) (r : Response V) (d d1 : DemuxState V)
    (hf : r.final = true)
    (h : validateResponses_iter env numUsing respErr r d = IterOutcome.continued d1) :
    ∃ c, d.channels r.echoTag = c :: d1.channels r.echoTag
      ∧ (∀ id, id ≠ r.echoTag → d1.channels id = d.channels id)
      ∧ d1.points_received = (d.points_received + c) % 2 ^ 32 := by
  unfold validateResponses_iter at h
  by_cases h0 : numUsing = 0
  · simp [h0] at h
  by_cases he : respErr = true
  · simp [h0, he] at h
  cases hch : d.channels r.echoTag with
  | nil => simp [h0, he, hf, hch, chanRecv] at h
  | cons c rest =>
    by_cases hs : r.statusOK = false
    · simp [h0, he, hf, hs, hch, chanRecv] at h
    by_cases hv : env.VERIFY_RESPONSES = false
    · simp only [h0, he, hf, hs, hv, hch, chanRecv, if_false, if_true, Bool.false_eq_true,
        Bool.true_eq_false, IterOutcome.continued.injEq] at h
      rw [← h]
      refine ⟨c, by simp, ?_, rfl⟩
      intro id hid
      exact Function.update_noteq hid _ _
    · simp only [h0, he, hf, hs, hv, hch, chanRecv, if_false, if_true, Bool.false_eq_true,
        Bool.true_eq_false, IterOutcome.continued.injEq] at h
      rw [← h]
      refine ⟨c, ?_, ?_, ?_⟩
      · show _ = c :: (List.foldl (verifyRecord env r.echoTag) _ _).1.channels r.echoTag
        rw [(verifyRecord_channels env r.echoTag _ _).1]
        simp
      · intro id hid
        show (List.foldl (verifyRecord env r.echoTag) _ _).1.channels id = _
        rw [(verifyRecord_channels env r.echoTag _ _).1]
        exact Function.update_noteq hid _ _
      · show (List.foldl (verifyRecord env r.echoTag) _ _).1.points_received = _
        rw [(verifyRecord_channels env r.echoTag _ _).2]

/-- C10: in every reachable state of a stream with window `M`, the number of
requests sent exceeds the number of final responses processed by at most `M`;
the credit received for the `i`-th final response and the point count of the
`i`-th request sent are both the count of the `i`-th message of the producer;
and in `validateResponses` a response that is not final leaves the credit
channels unchanged, while a final one receives the oldest credit of its
stream. -/
theorem stream_window_bounded (M : Nat) (msgs : List Message) (s : StreamState)
    (h : StreamReachable M msgs s) :
    s.sent.length ≤ s.credits.length + M
      ∧ (∀ (i c : Nat), s.credits[i]? = some c → (msgs.map Message.numPoints)[i]? = some c)
      ∧ (∀ (i n : Nat), s.sent[i]? = some n → (msgs.map Message.numPoints)[i]? = some n)
      ∧ (∀ (V : Type) [DecidableEq V] (env : DemuxEnv V) (numUsing : Int) (respErr : Bool)
          (r : Response V) (d d1 : DemuxState V),
          validateResponses_iter env numUsing respErr r d = IterOutcome.continued d1 →
          (r.final = false → d1.channels = d.channels)
            ∧ (r.final = true → chanRecv (d.channels r.echoTag)
                = some ((d.channels r.echoTag).headD 0, d1.channels r.echoTag))) := by
  obtain ⟨h1, ⟨t2, h2⟩, ⟨t3, h3⟩, h4, h5, _, _⟩ := streamInv_reachable M msgs s h
  refine ⟨by omega, ?_, ?_, ?_⟩
  · intro i c hc
    rw [List.append_assoc] at h2
    exact getElem?_of_append_eq _ _ _ h2 i c hc
  · intro i n hn
    exact getElem?_of_append_eq _ _ _ h3 i n hn
  · intro V _ env numUsing respErr r d d1 hiter
    refine ⟨fun hf => validateResponses_intermediate env numUsing respErr r d d1 hf hiter, ?_⟩
    intro hf
    obtain ⟨c, hc, _, _⟩ := validateResponses_final env numUsing respErr r d d1 hf hiter
    rw [hc]
    rfl

theorem stream_window_bounded_witness :
    StreamReachable 2 [⟨0, 4⟩] streamAfterSend
      ∧ (streamAfterSend.sent.length ≤ streamAfterSend.credits.length + 2
        ∧ (∀ (i c : Nat), streamAfterSend.credits[i]? = some c →
            (List.map Message.numPoints [⟨0, 4⟩])[i]? = some c)
        ∧ (∀ (i n : Nat), streamAfterSend.sent[i]? = some n →
            (List.map Message.numPoints [⟨0, 4⟩])[i]? = some n)
        ∧ (∀ (V : Type) [DecidableEq V] (env : DemuxEnv V) (numUsing : Int) (respErr : Bool)
            (r : Response V) (d d1 : DemuxState V),
            validateResponses_iter env numUsing respErr r d = IterOutcome.continued d1 →
            (r.final = false → d1.channels = d.channels)
              ∧ (r.final = true → chanRecv (d.channels r.echoTag)
                  = some ((d.channels r.echoTag).headD 0, d1.channels r.echoTag)))) :=
  have hreach : StreamReachable 2 [⟨0, 4⟩] streamAfterSend :=
    Relation.ReflTransGen.tail
      (Relation.ReflTransGen.single
        (StreamStep.enqueue StreamState.init ⟨0, 4⟩ [4] rfl rfl rfl rfl))
      (StreamStep.send _ 4 rfl)
  ⟨hreach, stream_window_bounded 2 [⟨0, 4⟩] streamAfterSend hreach⟩

/-! ## The verifier in deterministic mode -/

theorem expectedPair_append_lt {V : Type} (g : Globals) (sines : Nat → V) (tags more : List Nat)
    (n : Nat) (hn : n < tags.length) :
    expectedPair g sines (tags ++ more) n = expectedPair g sines tags n := by
  unfold expectedPair
  rw [List.getD_append _ _ _ _ hn, List.take_append_of_le_length (le_of_lt hn)]

theorem expectedLog_append_singleton {V : Type} (g : Globals) (sines : Nat → V)
    (tags : List Nat) (id : Nat) :
    (List.range (tags ++ [id]).length).map (expectedPair g sines (tags ++ [id]))
      = (List.range tags.length).map (expectedPair g sines tags)
        ++ [(id, wrapInt64 (g.FIRST_TIME + ((tags.count id : Nat) : Int) * g.NANOS_BETWEEN_POINTS),
              sines ((tags.length + 1) % 100))] := by
  rw [List.length_append, List.length_singleton, List.range_succ, List.map_append,
    List.map_singleton]
  congr 1
  · apply List.map_congr_left
    intro n hn
    exact expectedPair_append_lt g sines tags [id] n (List.mem_range.mp hn)
  · unfold expectedPair
    rw [List.getD_append_right _ _ _ _ (le_refl _), Nat.sub_self,
      List.take_append_of_le_length (le_refl _), List.take_length]
    rfl

theorem verifyRecord_det {V : Type} [DecidableEq V] (env : DemuxEnv V)
    (hd : env.g.DETERMINISTIC_KV = true) (id : Nat) (s : DemuxState V) (ct : Int)
    (record : Int × V) :
    (verifyRecord env id (s, ct) record).1.expectedLog
        = s.expectedLog ++ [(id, ct, env.sines ((s.sinesIndex + 1) % 100))]
      ∧ (verifyRecord env id (s, ct) record).1.sinesIndex = (s.sinesIndex + 1) % 100
      ∧ (verifyRecord env id (s, ct) record).1.times = s.times
      ∧ (verifyRecord env id (s, ct) record).2 = wrapInt64 (ct + env.g.NANOS_BETWEEN_POINTS) := by
  unfold verifyRecord getSinusoidValue
  simp [hd]

/-- The record loop of `validateResponses` in deterministic mode, started when the
records verified so far have the tags `tags`. -/
theorem verifyRecords_det {V : Type} [DecidableEq V] (env : DemuxEnv V)
    (hd : env.g.DETERMINISTIC_KV = true) (id : Nat) (records : List (Int × V)) :
    ∀ (tags : List Nat) (acc : DemuxState V × Int),
      acc.1.expectedLog = (List.range tags.length).map (expectedPair env.g env.sines tags) →
      acc.1.sinesIndex % 100 = tags.length % 100 →
      acc.2 = wrapInt64 (env.g.FIRST_TIME
            + ((tags.count id : Nat) : Int) * env.g.NANOS_BETWEEN_POINTS) →
      (records.foldl (verifyRecord env id) acc).1.expectedLog
          = (List.range (tags ++ List.replicate records.length id).length).map
              (expectedPair env.g env.sines (tags ++ List.replicate records.length id))
        ∧ (records.foldl (verifyRecord env id) acc).1.sinesIndex % 100
            = (tags ++ List.replicate records.length id).length % 100
        ∧ (records.foldl (verifyRecord env id) acc).2
            = wrapInt64 (env.g.FIRST_TIME
                + (((tags ++ List.replicate records.length id).count id : Nat) : Int)
                  * env.g.NANOS_BETWEEN_POINTS)
        ∧ (records.foldl (verifyRecord env id) acc).1.times = acc.1.times := by
  induction records with
  | nil =>
    intro tags acc hlog hidx hct
    simpa using ⟨hlog, hidx, hct⟩
  | cons r rest ih =>
    intro tags acc hlog hidx hct
    obtain ⟨s, ct⟩ := acc
    simp only at hlog hidx hct
    obtain ⟨e1, e2, e3, e4⟩ := verifyRecord_det env hd id s ct r
    have hnext := ih (tags ++ [id]) (verifyRecord env id (s, ct) r)
      (by
        rw [e1, expectedLog_append_singleton, hlog, hct]
        have : (s.sinesIndex + 1) % 100 = (tags.length + 1) % 100 := by omega
        rw [this])
      (by rw [e2, List.length_append, List.length_singleton]; omega)
      (by
        rw [e4, hct, wrapInt64_add_wrap, List.count_append]
        congr 1
        simp only [List.count_singleton_self]
        push_cast
        ring)
    rw [List.foldl_cons]
    have hrep : tags ++ List.replicate (r :: rest).length id
        = tags ++ [id] ++ List.replicate rest.length id := by
      rw [List.length_cons, List.replicate_succ, List.append_assoc]
      rfl
    rw [hrep]
    obtain ⟨k1, k2, k3, k4⟩ := hnext
    exact ⟨k1, k2, k3, k4.trans e3⟩

/-- One iteration of `validateResponses` in deterministic verify mode extends the
log by the pairs of the records of the response and moves the cursor of the
stream of the response. -/
theorem validateResponses_iter_det {V : Type} [DecidableEq V] (env : DemuxEnv V)
    (hd : env.g.DETERMINISTIC_KV = true) (hv : env.VERIFY_RESPONSES = true)
    (r : Response V) (tags : List Nat) (d d1 : DemuxState V)
    (hlog : d.expectedLog = (List.range tags.length).map (expectedPair env.g env.sines tags))
    (hidx : d.sinesIndex % 100 = tags.length % 100)
    (htimes : ∀ id, d.times id = wrapInt64 (env.g.FIRST_TIME
        + ((tags.count id : Nat) : Int) * env.g.NANOS_BETWEEN_POINTS))
    (h : validateResponses_iter env 1 false r d = IterOutcome.continued d1) :
    d1.expectedLog = (List.range (tags ++ recordTags [r]).length).map
          (expectedPair env.g env.sines (tags ++ recordTags [r]))
      ∧ d1.sinesIndex % 100 = (tags ++ recordTags [r]).length % 100
      ∧ ∀ id, d1.times id = wrapInt64 (env.g.FIRST_TIME
          + (((tags ++ recordTags [r]).count id : Nat) : Int) * env.g.NANOS_BETWEEN_POINTS) := by
  have htags : recordTags [r]
      = List.replicate (r.records.take (r.records.length % 2 ^ 32)).length r.echoTag := by
    simp [recordTags]
  rw [htags]
  unfold validateResponses_iter at h
  rw [if_neg (by decide), if_neg (by decide)] at h
  cases hm : (if r.final = true then chanRecv (d.channels r.echoTag)
      else some (0, d.channels r.echoTag)) with
  | none =>
    simp only [hm] at h
    exact absurd h (by simp)
  | some p =>
    obtain ⟨numPoints, channel⟩ := p
    simp only [hm] at h
    by_cases hs : r.statusOK = false
    · rw [if_pos hs] at h
      exact absurd h (by simp)
    · rw [if_neg hs, if_neg (by rw [hv]; decide)] at h
      simp only [IterOutcome.continued.injEq] at h
      rw [← h]
      have key := verifyRecords_det env hd r.echoTag
        (r.records.take (r.records.length % 2 ^ 32)) tags
      refine ⟨(key _ hlog hidx (htimes r.echoTag)).1,
        (key _ hlog hidx (htimes r.echoTag)).2.1, ?_⟩
      intro id
      by_cases hid : id = r.echoTag
      · subst hid
        simp only [Function.update_same]
        exact (key _ hlog hidx (htimes r.echoTag)).2.2.1
      · simp only [Function.update_noteq hid]
        rw [(key _ hlog hidx (htimes r.echoTag)).2.2.2]
        show d.times id = _
        rw [htimes id, List.count_append, List.count_replicate]
        have hne : ¬ (r.echoTag == id) = true := by
          simp only [beq_iff_eq]
          exact fun e => hid e.symm
        rw [if_neg hne, Nat.add_zero]

theorem recordTags_cons {V : Type} (r : Response V) (rest : List (Response V)) :
    recordTags (r :: rest) = recordTags [r] ++ recordTags rest := by
  simp [recordTags]

/-- Successive iterations in deterministic verify mode, started when the records
verified so far have the tags `tags`. -/
theorem validateResponses_run_det {V : Type} [DecidableEq V] (env : DemuxEnv V)
    (hd : env.g.DETERMINISTIC_KV = true) (hv : env.VERIFY_RESPONSES = true)
    (rs : List (Response V)) :
    ∀ (tags : List Nat) (d d1 : DemuxState V),
      d.expectedLog = (List.range tags.length).map (expectedPair env.g env.sines tags) →
      d.sinesIndex % 100 = tags.length % 100 →
      (∀ id, d.times id = wrapInt64 (env.g.FIRST_TIME
        + ((tags.count id : Nat) : Int) * env.g.NANOS_BETWEEN_POINTS)) →
      validateResponses_run env d rs = some d1 →
      d1.expectedLog = (List.range (tags ++ recordTags rs).length).map
          (expectedPair env.g env.sines (tags ++ recordTags rs)) := by
  induction rs with
  | nil =>
    intro tags d d1 hlog _ _ h
    simp only [validateResponses_run, Option.some.injEq] at h
    subst h
    simpa [recordTags] using hlog
  | cons r rest ih =>
    intro tags d d1 hlog hidx htimes h
    unfold validateResponses_run at h
    cases hit : validateResponses_iter env 1 false r d with
    | returned => rw [hit] at h; simp at h
    | exited code => rw [hit] at h; simp at h
    | blocked => rw [hit] at h; simp at h
    | continued d2 =>
      rw [hit] at h
      obtain ⟨k1, k2, k3⟩ := validateResponses_iter_det env hd hv r tags d d2 hlog hidx htimes hit
      have := ih (tags ++ recordTags [r]) d2 d1 k1 k2 k3 h
      rw [recordTags_cons, ← List.append_assoc]
      exact this

/-- C8 as stated fails on scenario C: for the first response of stream 0 the
verifier expects the times 1000, 1100, 1200 and the table entries 1, 2, 3; the
first record of stream 0 is expected to carry entry 1 of the sine table, not
entry 0. -/
theorem first_record_expects_entry_one :
    (validateResponses_run scenarioC_env
        (DemuxState.init scenarioC_globals scenarioC_channels)
        [scenarioC_response 0 1]).map DemuxState.expectedLog
      = some [(0, 1000, scenarioC_env.sines 1), (0, 1100, scenarioC_env.sines 2),
          (0, 1200, scenarioC_env.sines 3)]
    ∧ (validateResponses_run scenarioC_env
        (DemuxState.init scenarioC_globals scenarioC_channels)
        [scenarioC_response 0 1]).map (fun d => d.expectedLog[0]?)
      ≠ some (some (0, scenarioC_globals.FIRST_TIME + 0 * scenarioC_globals.NANOS_BETWEEN_POINTS,
          scenarioC_env.sines (0 % 100)))
    ∧ scenarioC_env.sines 1 ≠ scenarioC_env.sines 0 := by
  refine ⟨by decide, by decide, by decide⟩

/-- C8 as amended: in deterministic verify mode, when all streams are served over
one connection, so that a single `validateResponses` loop, started in the initial
state, verifies every record: after that loop has processed the responses `rs`,
the pair it computed for the `n`-th record verified (counting from 0 over all
streams, in processing order) is
`(FIRST_TIME + idx * NANOS_BETWEEN_POINTS, sines[(n + 1) mod 100])`, where `idx`
is the position of the record within its stream and the time is taken in `int64`
arithmetic.  With a single stream `n = idx`, so the expected value of the record
at position `idx` is `sines[(idx + 1) mod 100]`.  Nothing is said of a run whose
streams are served over two or more connections, where several loops advance the
sine cursor concurrently. -/
theorem verifier_expected_pairs {V : Type} [DecidableEq V] (env : DemuxEnv V)
    (hd : env.g.DETERMINISTIC_KV = true) (hv : env.VERIFY_RESPONSES = true)
    (hT0 : inInt64 env.g.FIRST_TIME) (channels : Nat → List Nat) (rs : List (Response V))
    (d1 : DemuxState V)
    (hrun : validateResponses_run env (DemuxState.init env.g channels) rs = some d1) :
    d1.expectedLog.length = (recordTags rs).length
      ∧ ∀ n, n < (recordTags rs).length →
          d1.expectedLog[n]?
            = some ((recordTags rs).getD n 0,
                wrapInt64 (env.g.FIRST_TIME
                  + ((((recordTags rs).take n).count ((recordTags rs).getD n 0) : Nat) : Int)
                    * env.g.NANOS_BETWEEN_POINTS),
                env.sines ((n + 1) % 100)) := by
  have hlog := validateResponses_run_det env hd hv rs [] (DemuxState.init env.g channels) d1
    (by simp [DemuxState.init]) (by simp [DemuxState.init])
    (by
      intro id
      simp only [DemuxState.init, List.count_nil, Nat.cast_zero, zero_mul, add_zero]
      exact (wrapInt64_eq _ hT0.1 hT0.2).symm)
    hrun
  rw [List.nil_append] at hlog
  refine ⟨by rw [hlog]; simp, ?_⟩
  intro n hn
  rw [hlog, List.getElem?_map, List.getElem?_range hn]
  rfl

theorem verifier_expected_pairs_witness :
    (scenarioC_env.g.DETERMINISTIC_KV = true ∧ scenarioC_env.VERIFY_RESPONSES = true
        ∧ inInt64 scenarioC_env.g.FIRST_TIME
        ∧ validateResponses_run scenarioC_env
            (DemuxState.init scenarioC_env.g scenarioC_channels)
            [scenarioC_response 0 1, scenarioC_response 1 4] = some scenarioC_after)
      ∧ (scenarioC_after.expectedLog.length
          = (recordTags [scenarioC_response 0 1, scenarioC_response 1 4]).length
        ∧ ∀ n, n < (recordTags [scenarioC_response 0 1, scenarioC_response 1 4]).length →
            scenarioC_after.expectedLog[n]?
              = some ((recordTags [scenarioC_response 0 1, scenarioC_response 1 4]).getD n 0,
                  wrapInt64 (scenarioC_env.g.FIRST_TIME
                    + ((((recordTags [scenarioC_response 0 1, scenarioC_response 1 4]).take
                          n).count
                        ((recordTags [scenarioC_response 0 1, scenarioC_response 1 4]).getD n 0)
                        : Nat) : Int)
                      * scenarioC_env.g.NANOS_BETWEEN_POINTS),
                  scenarioC_env.sines ((n + 1) % 100))) :=
  ⟨⟨rfl, rfl, by decide, rfl⟩,
    verifier_expected_pairs scenarioC_env rfl rfl (by decide) scenarioC_channels
      [scenarioC_response 0 1, scenarioC_response 1 4] scenarioC_after rfl⟩

/-- With one server and one connection per server every stream is served over
connection `(0, 0)`: the loop of that connection is then the only
`validateResponses` loop that verifies records. -/
theorem single_connection_assignment (uuids : List (List (Fin 256)))
    (hu : ∀ u ∈ uuids, u ≠ []) :
    ∃ a, send_assign 1 1 Assignment.init uuids = some a
      ∧ a.spawned.length = uuids.length
      ∧ ∀ conn ∈ a.spawned, conn = { serverIndex := 0, connectionIndex := 0 } := by
  obtain ⟨a, ha, hsp⟩ := send_assign_spec 1 1 Nat.one_pos Nat.one_pos
    uuids [] Assignment.init hu (by simp [Assignment.init]) (by simp [Assignment.init])
  refine ⟨a, ha, by rw [hsp]; simp, ?_⟩
  intro conn hconn
  rw [hsp] at hconn
  obtain ⟨s, _, hs⟩ := List.mem_map.mp hconn
  subst hs
  unfold specAssignment
  simp only [Nat.mod_one]

/-- On scenario C with the two responses above the verifier expects, for stream 1,
the table entries 4, 5, 6 at the times 1000, 1100, 1200: the sine cursor is
shared by the streams. -/
theorem scenarioC_log :
    scenarioC_after.expectedLog
      = [(0, 1000, 1), (0, 1100, 2), (0, 1200, 3), (1, 1000, 4), (1, 1100, 5), (1, 1200, 6)]
    ∧ scenarioC_after.pass = true := by
  refine ⟨by decide, by decide⟩

/-! ## The planner below `2 ^ 53`: the floating-point ceiling is exact -/

theorem bitLen_zero (fuel : Nat) : bitLen fuel 0 = 0 := by
  cases fuel <;> simp [bitLen]

theorem bitLen_spec : ∀ (fuel n : Nat), 0 < n → n < 2 ^ fuel →
    0 < bitLen fuel n ∧ 2 ^ (bitLen fuel n - 1) ≤ n ∧ n < 2 ^ (bitLen fuel n) := by
  intro fuel
  induction fuel with
  | zero => intro n h0 h1; simp at h1; omega
  | succ f ih =>
    intro n h0 h1
    have hn : n ≠ 0 := by omega
    simp only [bitLen, if_neg hn]
    rcases Nat.eq_zero_or_pos (n / 2) with hz | hpos
    · rw [hz, bitLen_zero]
      have : n = 1 := by omega
      subst this
      simp
    · have hlt : n / 2 < 2 ^ f := by
        rw [pow_succ] at h1
        omega
      obtain ⟨k0, k1, k2⟩ := ih (n / 2) hpos hlt
      refine ⟨by omega, ?_, ?_⟩
      · have e : bitLen f (n / 2) + 1 - 1 = (bitLen f (n / 2) - 1) + 1 := by omega
        rw [e, pow_succ]
        omega
      · rw [pow_succ]
        omega


theorem float64Shift_spec (x y : Nat) (hx : 0 < x) (hx53 : x ≤ 2 ^ 53) (hy : 0 < y)
    (hy32 : y < 2 ^ 32) :
    2 ^ 52 * (scalePow2 x y (float64Shift x y)).2 ≤ (scalePow2 x y (float64Shift x y)).1
      ∧ (scalePow2 x y (float64Shift x y)).1 < 2 ^ 53 * (scalePow2 x y (float64Shift x y)).2 := by
  unfold float64Shift
  simp only
  obtain ⟨ha0, ha1, ha2⟩ := bitLen_spec 128 x hx (lt_of_le_of_lt hx53 (by norm_num))
  obtain ⟨hb0, hb1, hb2⟩ := bitLen_spec 128 y hy (lt_trans hy32 (by norm_num))
  generalize bitLen 128 x = a at *
  generalize bitLen 128 y = b at *
  have ha54 : a ≤ 54 := by
    by_contra hc
    have : 2 ^ 54 ≤ 2 ^ (a - 1) := Nat.pow_le_pow_right (by norm_num) (by omega)
    omega
  have hxa : x < 2 * 2 ^ (a - 1) := by
    have e : a = (a - 1) + 1 := by omega
    rw [e, pow_succ] at ha2
    simpa [Nat.mul_comm] using ha2
  have hyb : y < 2 * 2 ^ (b - 1) := by
    have e : b = (b - 1) + 1 := by omega
    rw [e, pow_succ] at hb2
    simpa [Nat.mul_comm] using hb2
  by_cases hs0 : (0 : Int) ≤ 52 - ((a : Int) - 1) + ((b : Int) - 1)
  · have hk : (52 - ((a : Int) - 1) + ((b : Int) - 1)).toNat = 52 + b - a := by omega
    have hrel : 2 ^ (a - 1) * 2 ^ (52 + b - a) = 2 ^ 52 * 2 ^ (b - 1) := by
      rw [← pow_add, ← pow_add]
      congr 1
      omega
    have hpos : 0 < 2 ^ (52 + b - a) := pow_pos (by norm_num) _
    have hlow : 2 ^ (a - 1) * 2 ^ (52 + b - a) ≤ x * 2 ^ (52 + b - a) :=
      Nat.mul_le_mul_right _ ha1
    have hup : x * 2 ^ (52 + b - a) < 2 * 2 ^ (a - 1) * 2 ^ (52 + b - a) :=
      Nat.mul_lt_mul_of_pos_right hxa hpos
    have hA0 : (scalePow2 x y (52 - ((a : Int) - 1) + ((b : Int) - 1)))
        = (x * 2 ^ (52 + b - a), y) := by
      unfold scalePow2
      rw [if_pos hs0, hk]
    rw [hA0]
    simp only
    by_cases hlt : x * 2 ^ (52 + b - a) < 2 ^ 52 * y
    · rw [if_pos hlt]
      have hs1 : (0 : Int) ≤ 52 - ((a : Int) - 1) + ((b : Int) - 1) + 1 := by omega
      have hk1 : (52 - ((a : Int) - 1) + ((b : Int) - 1) + 1).toNat = (52 + b - a) + 1 := by
        omega
      have hK1 : x * 2 ^ (52 + b - a + 1) = 2 * (x * 2 ^ (52 + b - a)) := by
        rw [pow_succ]; ring
      unfold scalePow2
      rw [if_pos hs1, hk1]
      simp only
      rw [hK1]
      constructor
      · linarith
      · linarith
    · rw [if_neg hlt, hA0]
      simp only
      constructor
      · omega
      · linarith
  · have ha : a = 54 := by omega
    have hb : b = 1 := by omega
    subst ha hb
    norm_num at ha1 hb2
    have hx' : x = 2 ^ 53 := by omega
    have hy' : y = 1 := by omega
    subst hx' hy'
    decide


theorem roundHalfEven_add_mul (q0 w P : Nat) (hP : 0 < P) (hq : q0 % 2 = 0) :
    roundHalfEven (q0 * P + w) P = q0 + roundHalfEven w P := by
  have hdiv : (q0 * P + w) / P = q0 + w / P := by
    rw [Nat.add_comm, Nat.add_mul_div_right _ _ hP, Nat.add_comm]
  have hmod : (q0 * P + w) % P = w % P := by
    rw [Nat.add_comm, Nat.add_mul_mod_self_right]
  unfold roundHalfEven
  rw [hdiv, hmod]
  have hpar : (q0 + w / P) % 2 = (w / P) % 2 := by omega
  rw [hpar]
  split_ifs <;> omega

theorem roundHalfEven_le_succ (w P : Nat) : roundHalfEven w P ≤ w / P + 1 := by
  unfold roundHalfEven
  split_ifs <;> omega

theorem roundHalfEven_pos (w P : Nat) (hP : 0 < P) (h : P < 2 * w) : 0 < roundHalfEven w P := by
  by_cases hw : w < P
  · unfold roundHalfEven
    rw [Nat.mod_eq_of_lt hw, Nat.div_eq_of_lt hw]
    split_ifs <;> omega
  · have : 0 < w / P := Nat.div_pos (by omega) hP
    unfold roundHalfEven
    split_ifs <;> omega

theorem roundHalfEven_zero (P : Nat) (hP : 0 < P) : roundHalfEven 0 P = 0 := by
  unfold roundHalfEven
  simp [hP]

theorem div_of_lt (n S w : Nat) (hS : 0 < S) (hw : w < S) : (n * S + w) / S = n := by
  rw [Nat.add_comm, Nat.add_mul_div_right _ _ hS, Nat.div_eq_of_lt hw, Nat.zero_add]

theorem float64OfInt_exact (T : Nat) (h : T ≤ 2 ^ 53) : float64OfInt T = T := by
  unfold float64OfInt
  by_cases hlt : T < 2 ^ 53
  · rw [if_pos hlt]
  · have : T = 2 ^ 53 := by omega
    subst this
    decide

theorem ceilDiv_eq (n P r : Nat) (hP : 0 < P) (hr : r < P) :
    ceilDiv (n * P + r) P = if r = 0 then n else n + 1 := by
  unfold ceilDiv
  split_ifs with h0
  · subst h0
    have : n * P + 0 + P - 1 = n * P + (P - 1) := by omega
    rw [this, div_of_lt n P (P - 1) hP (by omega)]
  · have : n * P + r + P - 1 = (n + 1) * P + (r - 1) := by
      rw [Nat.add_mul]; omega
    rw [this, div_of_lt (n + 1) P (r - 1) hP (by omega)]

/-- For a dividend of at most `2 ^ 53` and a `uint32` divisor, the ceiling of the
binary64 quotient is the exact ceiling of the quotient. -/
theorem float_ceil_exact (T P : Nat) (hT : 0 < T) (hT53 : T ≤ 2 ^ 53) (hP : 0 < P)
    (hP32 : P < 2 ^ 32) :
    ceilFrac (float64Div (float64OfInt T) P) = ceilDiv T P := by
  rw [float64OfInt_exact T hT53]
  obtain ⟨hlo, hhi⟩ := float64Shift_spec T P hT hT53 hP hP32
  unfold float64Div
  rw [if_neg (by omega)]
  simp only
  generalize float64Shift T P = s at *
  unfold scalePow2 at hlo hhi ⊢
  by_cases hs : 0 ≤ s
  · rw [if_pos hs] at hlo hhi ⊢
    simp only at hlo hhi ⊢
    rw [if_pos hs]
    generalize s.toNat = k at *
    have hdm : T = (T / P) * P + T % P := by
      have := Nat.div_add_mod T P
      rw [Nat.mul_comm] at this
      exact this.symm
    have hr : T % P < P := Nat.mod_lt _ hP
    generalize T / P = n at *
    generalize T % P = r at *
    subst hdm
    rw [ceilDiv_eq n P r hP hr]
    have hSpos : 0 < 2 ^ k := pow_pos (by norm_num) _
    cases k with
    | zero =>
      simp only [pow_zero, Nat.mul_one] at hlo hhi ⊢
      unfold ceilFrac
      simp only [Nat.add_sub_cancel, Nat.div_one]
      have hP2 : P ≤ 2 := by
        by_contra hc
        have : 2 ^ 52 * 3 ≤ 2 ^ 52 * P := Nat.mul_le_mul_left _ (by omega)
        omega
      have hP12 : P = 1 ∨ P = 2 := by omega
      rcases hP12 with h1 | h2
      · subst h1
        have hr0 : r = 0 := by omega
        subst hr0
        unfold roundHalfEven
        simp [Nat.mod_one]
      · subst h2
        have hr0 : r = 0 := by omega
        have hn : n = 2 ^ 52 := by omega
        subst hr0 hn
        decide
    | succ k1 =>
      have hS : 2 ^ (k1 + 1) = 2 * 2 ^ k1 := by rw [pow_succ]; ring
      rw [hS] at hlo hhi hSpos ⊢
      generalize 2 ^ k1 = S1 at *
      have hsplit : (n * P + r) * (2 * S1) = (n * (2 * S1)) * P + r * (2 * S1) := by ring
      rw [hsplit] at hlo hhi ⊢
      rw [roundHalfEven_add_mul _ _ P hP (by
        have : n * (2 * S1) = 2 * (n * S1) := by ring
        omega)]
      have hTS : (n * P + r) * (2 * S1) ≤ 2 ^ 53 * (2 * S1) := Nat.mul_le_mul_right _ hT53
      rw [hsplit] at hTS
      have hP2S : P ≤ 2 * (2 * S1) := by omega
      unfold ceilFrac
      simp only
      by_cases hr0 : r = 0
      · subst hr0
        rw [if_pos rfl, Nat.zero_mul, roundHalfEven_zero P hP]
        have : n * (2 * S1) + 0 + 2 * S1 - 1 = n * (2 * S1) + (2 * S1 - 1) := by omega
        rw [this, div_of_lt n (2 * S1) (2 * S1 - 1) hSpos (by omega)]
      · rw [if_neg hr0]
        have hrpos : 1 ≤ r := by omega
        have hrS : 2 * S1 ≤ r * (2 * S1) := Nat.le_mul_of_pos_left _ hrpos
        have hm_le : roundHalfEven (r * (2 * S1)) P ≤ 2 * S1 := by
          have h1 := roundHalfEven_le_succ (r * (2 * S1)) P
          have h2 : r * (2 * S1) / P < 2 * S1 := by
            rw [Nat.div_lt_iff_lt_mul hP]
            have : r * (2 * S1) < P * (2 * S1) := Nat.mul_lt_mul_of_pos_right hr hSpos
            rw [Nat.mul_comm (2 * S1) P]
            exact this
          omega
        have hm_pos : 0 < roundHalfEven (r * (2 * S1)) P := by
          apply roundHalfEven_pos _ _ hP
          by_contra hc
          have hc1 : 2 * (r * (2 * S1)) ≤ P := by omega
          have hPeq : P = 2 * (2 * S1) := by omega
          have hreq : r * (2 * S1) = 2 * S1 := by omega
          have hr1 : r = 1 := by
            have : r * (2 * S1) = 1 * (2 * S1) := by omega
            exact Nat.eq_of_mul_eq_mul_right hSpos this
          subst hr1
          subst hPeq
          have e1 : n * (2 * S1) * (2 * (2 * S1)) + 1 * (2 * S1)
              = (n * (2 * (2 * S1)) + 1) * (2 * S1) := by ring
          have e2 : 2 ^ 52 * (2 * (2 * S1)) = 2 ^ 53 * (2 * S1) := by ring
          rw [e1, e2] at hlo
          have h3 : 2 ^ 53 ≤ n * (2 * (2 * S1)) + 1 := Nat.le_of_mul_le_mul_right hlo hSpos
          have e3 : n * (2 * (2 * S1)) = 2 * (n * (2 * S1)) := by ring
          omega
        have : n * (2 * S1) + roundHalfEven (r * (2 * S1)) P + 2 * S1 - 1
            = (n + 1) * (2 * S1) + (roundHalfEven (r * (2 * S1)) P - 1) := by
          rw [Nat.add_mul]; omega
        rw [this, div_of_lt (n + 1) (2 * S1) _ hSpos (by omega)]
  · rw [if_neg hs] at hlo hhi ⊢
    simp only at hlo hhi ⊢
    rw [if_neg hs]
    have hj : 1 ≤ (-s).toNat := by omega
    generalize (-s).toNat = j at *
    have h2j : 2 ≤ 2 ^ j := by
      calc 2 = 2 ^ 1 := by norm_num
        _ ≤ 2 ^ j := Nat.pow_le_pow_right (by norm_num) hj
    have hPj : 2 * P ≤ P * 2 ^ j := by
      rw [Nat.mul_comm P]; exact Nat.mul_le_mul_right _ h2j
    have hP1 : P = 1 := by omega
    subst hP1
    have hT' : T = 2 ^ 53 := by omega
    subst hT'
    have hj1 : j = 1 := by
      by_contra hc
      have : 2 ^ 2 ≤ 2 ^ j := Nat.pow_le_pow_right (by norm_num) (by omega)
      omega
    subst hj1
    decide

/-- For `TOTAL_RECORDS ≤ 2 ^ 53` the variable `perm_size` is
`ceil(TOTAL_RECORDS / POINTS_PER_MESSAGE)`. -/
theorem perm_size_exact (g : Globals) (h : ProducerPre g) (h53 : g.TOTAL_RECORDS ≤ 2 ^ 53) :
    perm_size g = ceilDiv g.TOTAL_RECORDS.toNat g.POINTS_PER_MESSAGE := by
  obtain ⟨hTR, hP, hP32, _⟩ := h
  unfold perm_size
  exact float_ceil_exact g.TOTAL_RECORDS.toNat g.POINTS_PER_MESSAGE (by omega) (by omega) hP hP32

/-- For `TOTAL_RECORDS ≤ 2 ^ 53`, under either planner policy, the planner makes
`ceil(TOTAL_RECORDS / POINTS_PER_MESSAGE)` start times and the point counts of
the messages a producer sends add up to `TOTAL_RECORDS`. -/
theorem planner_total_exact (g : Globals) (h : ProducerPre g) (h53 : g.TOTAL_RECORDS ≤ 2 ^ 53)
    (x : List Nat) (hx : g.PERM_SEED ≠ 0 → x.Perm (List.range (perm_size g))) :
    (planner g x).length = ceilDiv g.TOTAL_RECORDS.toNat g.POINTS_PER_MESSAGE
      ∧ totalPoints (insert_data g g.FIRST_TIME (planner g x) (perm_size g))
          = g.TOTAL_RECORDS.toNat
      ∧ totalPoints (query_data g g.FIRST_TIME (planner g x) (perm_size g))
          = g.TOTAL_RECORDS.toNat := by
  have hps := perm_size_exact g h h53
  have hP : 0 < g.POINTS_PER_MESSAGE := h.2.1
  have hdm : g.TOTAL_RECORDS.toNat
      = (g.TOTAL_RECORDS.toNat / g.POINTS_PER_MESSAGE) * g.POINTS_PER_MESSAGE
        + g.TOTAL_RECORDS.toNat % g.POINTS_PER_MESSAGE := by
    have := Nat.div_add_mod g.TOTAL_RECORDS.toNat g.POINTS_PER_MESSAGE
    rw [Nat.mul_comm] at this
    exact this.symm
  have hr : g.TOTAL_RECORDS.toNat % g.POINTS_PER_MESSAGE < g.POINTS_PER_MESSAGE :=
    Nat.mod_lt _ hP
  have hceil := ceilDiv_eq (g.TOTAL_RECORDS.toNat / g.POINTS_PER_MESSAGE)
    g.POINTS_PER_MESSAGE (g.TOTAL_RECORDS.toNat % g.POINTS_PER_MESSAGE) hP hr
  rw [← hdm] at hceil
  have htot : totalPoints (insert_data g g.FIRST_TIME (planner g x) (perm_size g))
      = g.TOTAL_RECORDS.toNat := by
    rw [totalPoints_planner g h x hx ?_]
    · rw [hps, hceil]
      generalize g.TOTAL_RECORDS.toNat / g.POINTS_PER_MESSAGE = n at *
      generalize g.TOTAL_RECORDS.toNat % g.POINTS_PER_MESSAGE = r at *
      split_ifs with h0
      · rw [h0, Nat.add_zero] at hdm
        omega
      · rw [Nat.add_mul]
        omega
    · right
      rw [hps, hceil]
      generalize g.TOTAL_RECORDS.toNat / g.POINTS_PER_MESSAGE = n at *
      generalize g.TOTAL_RECORDS.toNat % g.POINTS_PER_MESSAGE = r at *
      split_ifs with h0
      · have : (n - 1) * g.POINTS_PER_MESSAGE ≤ n * g.POINTS_PER_MESSAGE :=
          Nat.mul_le_mul_right _ (Nat.sub_le _ _)
        omega
      · rw [Nat.add_sub_cancel]
        omega
  refine ⟨by rw [planner_length, hps], htot, ?_⟩
  rw [← insert_data_eq_query_data]
  exact htot

/-- Scenario A of the specification: three messages, at 0, 4000 and 8000, of 4, 4
and 2 points; in the order 8000, 0, 4000 (scenario B with the permutation
2, 0, 1) the message at 8000 still carries 2 points. -/
theorem scenarioA_messages :
    perm_size scenarioA_globals = 3
      ∧ insert_data scenarioA_globals 0 (planner scenarioA_globals []) 3
          = [⟨0, 4⟩, ⟨4000, 4⟩, ⟨8000, 2⟩]
      ∧ query_data { scenarioA_globals with PERM_SEED := 7 } 0
            (planner { scenarioA_globals with PERM_SEED := 7 } [2, 0, 1]) 3
          = [⟨8000, 2⟩, ⟨0, 4⟩, ⟨4000, 4⟩] := by
  refine ⟨by decide, by decide, by decide⟩

/-! ## Safety of the sharding step -/

/-- C12, evaluated at a configuration with `NUM_SERVERS = 0`, no `DB_ADDR` key and
one valid `UUID1` (the other keys as in scenario A): the numeric checks, the
DB_ADDR count check and the UUID count check all pass, in every mode, and the
first call of `getServer` takes a remainder by zero, so that neither assignment
loop runs to its end. -/
theorem no_server_passes_validation_then_panics :
    main_validation false noServerConfig noServerKeys
        = ValidationOutcome.passed noServerGlobals 2 [7 :: List.replicate 15 0]
      ∧ main_validation true noServerConfig noServerKeys
        = ValidationOutcome.passed noServerGlobals 1 [7 :: List.replicate 15 0]
      ∧ getServer noServerGlobals.NUM_SERVERS.toNat (7 :: List.replicate 15 0) = none
      ∧ (main_assign false noServerGlobals [7 :: List.replicate 15 0]).isSome = false
      ∧ (main_assign true noServerGlobals [7 :: List.replicate 15 0]).isSome = false := by
  refine ⟨by decide, by decide, by decide, by decide, by decide⟩

theorem main_config_accepted (VERIFY_RESPONSES : Bool) (c : RawConfig) (g : Globals) (m : Int)
    (h : main_config VERIFY_RESPONSES c = ConfigOutcome.accepted g m) :
    numericChecks c = true ∧ g.TCP_CONNECTIONS = c.TCP_CONNECTIONS
      ∧ g.NUM_SERVERS = c.NUM_SERVERS ∧ g.NUM_STREAMS = c.NUM_STREAMS := by
  unfold main_config at h
  by_cases hn : numericChecks c = false
  · simp [hn] at h
  · simp only [hn, if_false] at h
    split_ifs at h
    all_goals
      simp only [ConfigOutcome.accepted.injEq] at h
      obtain ⟨hg, _⟩ := h
      subst hg
      exact ⟨by simpa using hn, rfl, rfl, rfl⟩

theorem uuidLoop_mem (k : KeyedConfig) (remaining : Nat) :
    ∀ (j : Nat) (acc : List (List (Fin 256))) (j1 : Nat) (uuids : List (List (Fin 256))),
      uuidLoop k j remaining acc = some (j1, uuids) →
      ∀ u ∈ uuids, u ∈ acc ∨ ∃ n, k.uuid n = some (some u) := by
  induction remaining with
  | zero =>
    intro j acc j1 uuids h u hu
    simp only [uuidLoop, Option.some.injEq, Prod.mk.injEq] at h
    obtain ⟨_, h2⟩ := h
    subst h2
    exact Or.inl hu
  | succ r ih =>
    intro j acc j1 uuids h u hu
    unfold uuidLoop at h
    cases hk : k.uuid (j + 1) with
    | none =>
      simp only [hk, Option.some.injEq, Prod.mk.injEq] at h
      obtain ⟨_, h2⟩ := h
      subst h2
      exact Or.inl hu
    | some p =>
      cases p with
      | none => simp [hk] at h
      | some v =>
        simp only [hk] at h
        rcases ih (j + 1) (acc ++ [v]) j1 uuids h u hu with hmem | hex
        · rcases List.mem_append.mp hmem with h1 | h1
          · exact Or.inl h1
          · right
            refine ⟨j + 1, ?_⟩
            rw [List.mem_singleton.mp h1]
            exact hk
        · exact Or.inr hex

/-- What the validation of `main` guarantees when it passes: the numeric checks
hold, `TCP_CONNECTIONS` is positive, `NUM_SERVERS` is not negative (it may be
zero), and every stream UUID is a value `uuid.Parse` returned. -/
theorem main_validation_passed (VERIFY_RESPONSES : Bool) (c : RawConfig) (k : KeyedConfig)
    (g : Globals) (m : Int) (uuids : List (List (Fin 256)))
    (h : main_validation VERIFY_RESPONSES c k = ValidationOutcome.passed g m uuids) :
    numericChecks c = true ∧ 0 < g.TCP_CONNECTIONS ∧ 0 ≤ g.NUM_SERVERS
      ∧ ∀ u ∈ uuids, ∃ n, k.uuid n = some (some u) := by
  unfold main_validation at h
  cases hc : main_config VERIFY_RESPONSES c with
  | exited code => simp [hc] at h
  | returned => simp [hc] at h
  | accepted g1 m1 =>
    simp only [hc] at h
    obtain ⟨hnum, hT, _, _⟩ := main_config_accepted VERIFY_RESPONSES c g1 m1 hc
    have hTpos : 0 < c.TCP_CONNECTIONS := ((numericChecks_iff c).mp hnum).2.1
    by_cases hneg : g1.NUM_SERVERS < 0
    · simp [hneg] at h
    · rw [if_neg hneg] at h
      by_cases hdb : (↑(dbAddrLoop k 0 g1.NUM_SERVERS.toNat) : Int) ≠ g1.NUM_SERVERS
          ∨ (k.dbAddr (dbAddrLoop k 0 g1.NUM_SERVERS.toNat + 1)).isSome = true
      · rw [if_pos hdb] at h
        exact absurd h (by simp)
      rw [if_neg hdb] at h
      cases hl : uuidLoop k 0 g1.NUM_STREAMS.toNat [] with
      | none => simp [hl] at h
      | some p =>
        obtain ⟨j1, us⟩ := p
        simp only [hl] at h
        by_cases hu : (↑j1 : Int) ≠ g1.NUM_STREAMS ∨ (k.uuid (j1 + 1)).isSome = true
        · rw [if_pos hu] at h
          exact absurd h (by simp)
        rw [if_neg hu] at h
        simp only [ValidationOutcome.passed.injEq] at h
        obtain ⟨hg, _, hus⟩ := h
        subst hg hus
        refine ⟨hnum, by rw [hT]; exact hTpos, by omega, ?_⟩
        intro u hmem
        rcases uuidLoop_mem k _ 0 [] j1 us hl u hmem with h1 | h1
        · simp at h1
        · exact h1

/-- When validation passes and moreover `NUM_SERVERS` is positive, the sharding
step is safe in every mode: the assignment loop runs to its end, and every
stream gets a server index below `NUM_SERVERS` and a connection index below
`TCP_CONNECTIONS`.  (`uuid.Parse` returns 16 bytes or `nil`.) -/
theorem sharding_safe_of_positive_servers (VERIFY_RESPONSES DELETE_POINTS : Bool)
    (c : RawConfig) (k : KeyedConfig) (g : Globals) (m : Int) (uuids : List (List (Fin 256)))
    (hparse : ∀ n u, k.uuid n = some (some u) → u.length = 16)
    (h : main_validation VERIFY_RESPONSES c k = ValidationOutcome.passed g m uuids)
    (hNS : 0 < g.NUM_SERVERS) :
    ∃ a, main_assign DELETE_POINTS g uuids = some a
      ∧ ∀ conn ∈ a.spawned,
          (conn.serverIndex : Int) < g.NUM_SERVERS
            ∧ (conn.connectionIndex : Int) < g.TCP_CONNECTIONS := by
  obtain ⟨_, hT, _, hmem⟩ := main_validation_passed VERIFY_RESPONSES c k g m uuids h
  have hu : ∀ u ∈ uuids, u ≠ [] := by
    intro u hin hnil
    obtain ⟨n, hn⟩ := hmem u hin
    have := hparse n u hn
    rw [hnil] at this
    simp at this
  have hNSn : 0 < g.NUM_SERVERS.toNat := by omega
  have hTn : 0 < g.TCP_CONNECTIONS.toNat := by omega
  obtain ⟨a, ha, hsp⟩ := send_assign_spec g.NUM_SERVERS.toNat g.TCP_CONNECTIONS.toNat hNSn hTn
    uuids [] Assignment.init hu (by simp [Assignment.init]) (by simp [Assignment.init])
  have hrange : ∀ conn ∈ a.spawned,
      (conn.serverIndex : Int) < g.NUM_SERVERS
        ∧ (conn.connectionIndex : Int) < g.TCP_CONNECTIONS := by
    intro conn hconn
    rw [hsp] at hconn
    obtain ⟨s, _, hs⟩ := List.mem_map.mp hconn
    subst hs
    unfold specAssignment
    simp only
    have h1 := Nat.mod_lt (firstByte (([] ++ uuids).getD s [])) hNSn
    have h2 := Nat.mod_lt (List.countP (fun u => decide (firstByte u % g.NUM_SERVERS.toNat
      = firstByte (([] ++ uuids).getD s []) % g.NUM_SERVERS.toNat))
      (List.take s ([] ++ uuids))) hTn
    constructor <;> omega
  cases DELETE_POINTS with
  | false => exact ⟨a, by simpa [main_assign] using ha, hrange⟩
  | true =>
    have hd := delete_assign_eq_send_assign g.NUM_SERVERS.toNat g.TCP_CONNECTIONS.toNat uuids
      Assignment.init Assignment.init rfl rfl
    rw [ha] at hd
    cases hdel : delete_assign g.NUM_SERVERS.toNat g.TCP_CONNECTIONS.toNat
        Assignment.init uuids with
    | none => rw [hdel] at hd; simp at hd
    | some d =>
      rw [hdel] at hd
      simp only [Option.map_some', Option.some.injEq] at hd
      refine ⟨d, by simpa [main_assign] using hdel, ?_⟩
      rw [hd]
      exact hrange

/-! ## The verdict of the verifier on one request -/

/-- One pass of the record loop of `validateResponses`: it logs one triple, keeps
the flag exactly when the record equals the logged pair, and moves the local
cursor by `NANOS_BETWEEN_POINTS`. -/
theorem verifyRecord_step {V : Type} [DecidableEq V] (env : DemuxEnv V) (id : Nat)
    (acc : DemuxState V × Int) (record : Int × V) :
    ∃ e : Nat × Int × V,
      (verifyRecord env id acc record).1.expectedLog = acc.1.expectedLog ++ [e]
        ∧ ((verifyRecord env id acc record).1.pass = true
            ↔ acc.1.pass = true ∧ e = (id, record.1, record.2))
        ∧ (verifyRecord env id acc record).1.receivedCounts = acc.1.receivedCounts
        ∧ (verifyRecord env id acc record).1.times = acc.1.times
        ∧ (verifyRecord env id acc record).2
            = wrapInt64 (acc.2 + env.g.NANOS_BETWEEN_POINTS) := by
  obtain ⟨s, ct⟩ := acc
  obtain ⟨recTime, received⟩ := record
  refine ⟨(id,
    (if env.g.DETERMINISTIC_KV then ct
      else wrapInt64 (ct + (env.rng id (s.rngPos id)).1)),
    (if env.g.DETERMINISTIC_KV then (getSinusoidValue env.sines s.sinesIndex).1
      else (env.rng id (s.rngPos id)).2)), rfl, ?_, rfl, rfl, rfl⟩
  unfold verifyRecord
  simp only [Prod.mk.injEq, true_and]
  by_cases h1 : (if env.g.DETERMINISTIC_KV then ct
      else wrapInt64 (ct + (env.rng id (s.rngPos id)).1)) = recTime
  · by_cases h2 : received = (if env.g.DETERMINISTIC_KV
        then (getSinusoidValue env.sines s.sinesIndex).1
        else (env.rng id (s.rngPos id)).2)
    · simp [h1, h2]
    · have h2b : ¬ (if env.g.DETERMINISTIC_KV then (getSinusoidValue env.sines s.sinesIndex).1
          else (env.rng id (s.rngPos id)).2) = received := fun e => h2 e.symm
      simp [h1, h2, h2b]
  · simp [h1]

/-- The record loop of `validateResponses` on the records of one response. -/
theorem verifyRecords_fold {V : Type} [DecidableEq V] (env : DemuxEnv V) (id : Nat)
    (records : List (Int × V)) :
    ∀ acc : DemuxState V × Int, inInt64 acc.2 →
      ∃ L : List (Nat × Int × V),
        L.length = records.length
          ∧ (records.foldl (verifyRecord env id) acc).1.expectedLog = acc.1.expectedLog ++ L
          ∧ ((records.foldl (verifyRecord env id) acc).1.pass = true
              ↔ acc.1.pass = true ∧ L = records.map (fun r => (id, r.1, r.2)))
          ∧ (records.foldl (verifyRecord env id) acc).1.receivedCounts = acc.1.receivedCounts
          ∧ (records.foldl (verifyRecord env id) acc).1.times = acc.1.times
          ∧ (records.foldl (verifyRecord env id) acc).2
              = wrapInt64 (acc.2 + (records.length : Int) * env.g.NANOS_BETWEEN_POINTS) := by
  induction records with
  | nil =>
    intro acc hacc
    refine ⟨[], rfl, by simp, by simp, rfl, rfl, ?_⟩
    simp only [List.foldl_nil, List.length_nil, Nat.cast_zero, zero_mul, add_zero]
    exact (wrapInt64_eq _ hacc.1 hacc.2).symm
  | cons r rest ih =>
    intro acc hacc
    obtain ⟨e, e1, e2, e3, e4, e5⟩ := verifyRecord_step env id acc r
    obtain ⟨L, l0, l1, l2, l3, l4, l5⟩ := ih (verifyRecord env id acc r)
      (by rw [e5]; exact wrapInt64_inInt64 _)
    refine ⟨e :: L, by simp [l0], ?_, ?_, ?_, ?_, ?_⟩
    · rw [List.foldl_cons, l1, e1]; simp
    · rw [List.foldl_cons, l2, e2]
      simp only [List.map_cons, List.cons.injEq]
      tauto
    · rw [List.foldl_cons, l3, e3]
    · rw [List.foldl_cons, l4, e4]
    · rw [List.foldl_cons, l5, e5, wrapInt64_add_wrap]
      congr 1
      simp only [List.length_cons]
      push_cast
      ring

/-- An intermediate response in verify mode: the accumulator of its stream grows
by the number of its records (modulo `2 ^ 32`), the cursor moves by one step per
record, and the flag survives exactly when every record equals the pair logged
for it. -/
theorem validateResponses_iter_intermediate {V : Type} [DecidableEq V] (env : DemuxEnv V)
    (hv : env.VERIFY_RESPONSES = true) (r : Response V) (d : DemuxState V)
    (hf : r.final = false) (hs : r.statusOK = true) (hlen : r.records.length < 2 ^ 32)
    (hT : inInt64 (d.times r.echoTag)) :
    ∃ (d1 : DemuxState V) (L : List (Nat × Int × V)),
      validateResponses_iter env 1 false r d = IterOutcome.continued d1
        ∧ L.length = r.records.length
        ∧ d1.expectedLog = d.expectedLog ++ L
        ∧ (d1.pass = true
            ↔ d.pass = true ∧ L = r.records.map (fun x => (r.echoTag, x.1, x.2)))
        ∧ d1.receivedCounts r.echoTag
            = (d.receivedCounts r.echoTag + r.records.length) % 2 ^ 32
        ∧ d1.times r.echoTag
            = wrapInt64 (d.times r.echoTag
                + (r.records.length : Int) * env.g.NANOS_BETWEEN_POINTS)
        ∧ d1.channels = d.channels := by
  obtain ⟨L, l0, l1, l2, l3, l4, l5⟩ := verifyRecords_fold env r.echoTag r.records
    (({ channels := Function.update d.channels r.echoTag (d.channels r.echoTag)
        points_received := d.points_received
        points_verified := d.points_verified
        times := d.times
        receivedCounts := Function.update d.receivedCounts r.echoTag
          ((d.receivedCounts r.echoTag + r.records.length) % 2 ^ 32)
        pass := d.pass
        sinesIndex := d.sinesIndex
        rngPos := d.rngPos
        expectedLog := d.expectedLog } : DemuxState V), d.times r.echoTag) hT
  unfold validateResponses_iter
  rw [if_neg (by decide), if_neg (by decide)]
  simp only [hf, hs, hv, Bool.false_eq_true, Bool.true_eq_false, if_false, false_and,
    Nat.mod_eq_of_lt hlen, List.take_length]
  refine ⟨_, L, rfl, l0, l1, ?_, ?_, ?_, ?_⟩
  · simpa [Nat.mod_eq_of_lt hlen] using l2
  · show (List.foldl (verifyRecord env r.echoTag) _ r.records).1.receivedCounts r.echoTag = _
    rw [l3]
    simp [Nat.mod_eq_of_lt hlen]
  · simp only [Function.update_same]
    exact l5
  · show (List.foldl (verifyRecord env r.echoTag) _ r.records).1.channels = _
    rw [(verifyRecord_channels env r.echoTag r.records _).1]
    exact Function.update_eq_self _ _

/-- A final response in verify mode, when `c` is the oldest credit of its stream:
the accumulator is reset, the cursor moves by one step per record, and the flag
survives exactly when accumulator plus record count is `c` in `uint32`
arithmetic and every record equals the pair logged for it. -/
theorem validateResponses_iter_final {V : Type} [DecidableEq V] (env : DemuxEnv V)
    (hv : env.VERIFY_RESPONSES = true) (r : Response V) (d : DemuxState V) (c : Nat)
    (rest : List Nat) (hf : r.final = true) (hs : r.statusOK = true)
    (hlen : r.records.length < 2 ^ 32) (hT : inInt64 (d.times r.echoTag))
    (hch : d.channels r.echoTag = c :: rest) :
    ∃ (d1 : DemuxState V) (L : List (Nat × Int × V)),
      validateResponses_iter env 1 false r d = IterOutcome.continued d1
        ∧ L.length = r.records.length
        ∧ d1.expectedLog = d.expectedLog ++ L
        ∧ (d1.pass = true
            ↔ d.pass = true ∧ (d.receivedCounts r.echoTag + r.records.length) % 2 ^ 32 = c
                ∧ L = r.records.map (fun x => (r.echoTag, x.1, x.2)))
        ∧ d1.receivedCounts r.echoTag = 0
        ∧ d1.times r.echoTag
            = wrapInt64 (d.times r.echoTag
                + (r.records.length : Int) * env.g.NANOS_BETWEEN_POINTS)
        ∧ d1.channels r.echoTag = rest := by
  obtain ⟨L, l0, l1, l2, l3, l4, l5⟩ := verifyRecords_fold env r.echoTag r.records
    (({ channels := Function.update d.channels r.echoTag rest
        points_received := (d.points_received + c) % 2 ^ 32
        points_verified := d.points_verified
        times := d.times
        receivedCounts := Function.update d.receivedCounts r.echoTag 0
        pass := if (r.records.length + d.receivedCounts r.echoTag) % 2 ^ 32 ≠ c
          then false else d.pass
        sinesIndex := d.sinesIndex
        rngPos := d.rngPos
        expectedLog := d.expectedLog } : DemuxState V), d.times r.echoTag) hT
  unfold validateResponses_iter
  rw [if_neg (by decide), if_neg (by decide)]
  simp only [hf, hs, hv, hch, chanRecv, Bool.false_eq_true, Bool.true_eq_false, if_false,
    if_true, true_and, Nat.mod_eq_of_lt hlen, List.take_length]
  refine ⟨_, L, rfl, l0, l1, ?_, ?_, ?_, ?_⟩
  · rw [show (List.foldl (verifyRecord env r.echoTag) _ r.records).1.pass = true
        ↔ _ from l2]
    show ((if (r.records.length + d.receivedCounts r.echoTag) % 2 ^ 32 ≠ c then false
        else d.pass) = true ∧ L = _) ↔ _
    rw [Nat.add_comm r.records.length]
    by_cases hc : (d.receivedCounts r.echoTag + r.records.length) % 2 ^ 32 = c
    · rw [if_neg (not_not.mpr hc)]
      tauto
    · rw [if_pos hc]
      simp only [Bool.false_eq_true, false_and]
      tauto
  · show (List.foldl (verifyRecord env r.echoTag) _ r.records).1.receivedCounts r.echoTag = _
    rw [l3]
    simp
  · simp only [Function.update_same]
    exact l5
  · show (List.foldl (verifyRecord env r.echoTag) _ r.records).1.channels r.echoTag = _
    rw [(verifyRecord_channels env r.echoTag r.records _).1]
    simp

theorem recordCount_cons {V : Type} (r : Response V) (rs : List (Response V)) :
    recordCount (r :: rs) = r.records.length + recordCount rs := rfl

theorem receivedTriples_cons {V : Type} (r : Response V) (rs : List (Response V)) :
    receivedTriples (r :: rs)
      = r.records.map (fun x => (r.echoTag, x.1, x.2)) ++ receivedTriples rs := rfl

/-- The responses to one request in verify mode (intermediate ones, then the final
one `fin`), for any value of the accumulator of the stream: the run goes through,
the accumulator ends at zero, the cursor has moved by one step per record, and
the flag survives exactly when it was set, the accumulator plus the record total
is the credit `c` modulo `2 ^ 32`, and every record equals the pair logged for
it. -/
theorem verify_request_run {V : Type} [DecidableEq V] (env : DemuxEnv V)
    (hv : env.VERIFY_RESPONSES = true) (fin : Response V) (c : Nat)
    (hfin : fin.final = true ∧ fin.statusOK = true ∧ fin.records.length < 2 ^ 32)
    (ints : List (Response V)) :
    ∀ (d : DemuxState V) (rest : List Nat),
      (∀ r ∈ ints, r.echoTag = fin.echoTag ∧ r.final = false ∧ r.statusOK = true
        ∧ r.records.length < 2 ^ 32) →
      d.channels fin.echoTag = c :: rest →
      inInt64 (d.times fin.echoTag) →
      ∃ (d1 : DemuxState V) (L : List (Nat × Int × V)),
        validateResponses_run env d (ints ++ [fin]) = some d1
          ∧ L.length = (receivedTriples (ints ++ [fin])).length
          ∧ d1.expectedLog = d.expectedLog ++ L
          ∧ (d1.pass = true
              ↔ d.pass = true
                ∧ (d.receivedCounts fin.echoTag + recordCount (ints ++ [fin])) % 2 ^ 32 = c
                ∧ L = receivedTriples (ints ++ [fin]))
          ∧ d1.receivedCounts fin.echoTag = 0
          ∧ d1.times fin.echoTag
              = wrapInt64 (d.times fin.echoTag
                  + (recordCount (ints ++ [fin]) : Int) * env.g.NANOS_BETWEEN_POINTS) := by
  induction ints with
  | nil =>
    intro d rest _ hch hT
    obtain ⟨d1, L, h1, h2, h3, h4, h5, h6, _⟩ :=
      validateResponses_iter_final env hv fin d c rest hfin.1 hfin.2.1 hfin.2.2 hT hch
    refine ⟨d1, L, ?_, ?_, h3, ?_, h5, ?_⟩
    · simp [validateResponses_run, h1]
    · simp [receivedTriples, h2]
    · rw [h4]
      simp [recordCount, receivedTriples]
    · rw [h6]
      simp [recordCount]
  | cons r ints ih =>
    intro d rest hints hch hT
    obtain ⟨htag, hf, hs, hlen⟩ := hints r (List.mem_cons_self _ _)
    rw [← htag] at hT hch
    obtain ⟨d2, L1, h1, h2, h3, h4, h5, h6, h7⟩ :=
      validateResponses_iter_intermediate env hv r d hf hs hlen hT
    rw [htag] at h5 h6 hT hch
    have hch2 : d2.channels fin.echoTag = c :: rest := by rw [h7]; exact hch
    have hT2 : inInt64 (d2.times fin.echoTag) := by rw [h6]; exact wrapInt64_inInt64 _
    obtain ⟨d1, L2, k1, k2, k3, k4, k5, k6⟩ :=
      ih d2 rest (fun x hx => hints x (List.mem_cons_of_mem _ hx)) hch2 hT2
    rw [List.cons_append]
    refine ⟨d1, L1 ++ L2, ?_, ?_, ?_, ?_, k5, ?_⟩
    · simp [validateResponses_run, h1, k1]
    · rw [receivedTriples_cons, List.length_append, List.length_append, List.length_map, h2, k2]
    · rw [k3, h3, List.append_assoc]
    · rw [k4, h4, h5, recordCount_cons, receivedTriples_cons]
      have hmod : ((d.receivedCounts fin.echoTag + r.records.length) % 2 ^ 32
            + recordCount (ints ++ [fin])) % 2 ^ 32
          = (d.receivedCounts fin.echoTag
              + (r.records.length + recordCount (ints ++ [fin]))) % 2 ^ 32 := by
        omega
      rw [hmod]
      have hsplit : L1 ++ L2 = r.records.map (fun x => (r.echoTag, x.1, x.2))
            ++ receivedTriples (ints ++ [fin])
          ↔ L1 = r.records.map (fun x => (r.echoTag, x.1, x.2))
            ∧ L2 = receivedTriples (ints ++ [fin]) := by
        constructor
        · intro h
          exact List.append_inj h (by rw [h2, List.length_map])
        · rintro ⟨a, b⟩
          rw [a, b]
      rw [hsplit]
      tauto
    · rw [k6, h6, wrapInt64_add_wrap, recordCount_cons]
      congr 1
      push_cast
      ring

/-! ### An answer of more than `2 ^ 32` records -/

theorem expectedRecords_length (g : Globals) (first count : Nat) :
    (expectedRecords g first count).length = count := by
  simp [expectedRecords]

theorem expectedRecords_append (g : Globals) (first p q : Nat) :
    expectedRecords g first p ++ expectedRecords g (first + p) q
      = expectedRecords g first (p + q) := by
  unfold expectedRecords
  rw [List.range_add, List.map_append, List.map_map]
  congr 1
  apply List.map_congr_left
  intro j _
  simp only [Function.comp_apply, Nat.add_assoc]

theorem chunk_recordCount (g : Globals) (N : Nat) (m : Nat) :
    ∀ i, recordCount (chunkResponses g N i m ++ [chunkFinal g ((i + m) * N)]) = m * N + 3 := by
  induction m with
  | zero =>
    intro i
    simp [chunkResponses, recordCount, chunkFinal, expectedRecords_length]
  | succ m ih =>
    intro i
    have e : (i + (m + 1)) * N = (i + 1 + m) * N := by ring
    rw [chunkResponses, List.cons_append, recordCount_cons, expectedRecords_length, e,
      ih (i + 1)]
    ring

theorem chunk_receivedTriples (g : Globals) (N : Nat) (m : Nat) :
    ∀ i, receivedTriples (chunkResponses g N i m ++ [chunkFinal g ((i + m) * N)])
      = (expectedRecords g (i * N) (m * N + 3)).map (fun x => (0, x.1, x.2)) := by
  induction m with
  | zero =>
    intro i
    simp [chunkResponses, receivedTriples, chunkFinal]
  | succ m ih =>
    intro i
    have e : (i + (m + 1)) * N = (i + 1 + m) * N := by ring
    have e2 : (i + 1) * N = i * N + N := by ring
    have e3 : (m + 1) * N + 3 = N + (m * N + 3) := by ring
    rw [chunkResponses, List.cons_append, receivedTriples_cons, e, ih (i + 1), e2, e3,
      ← expectedRecords_append g (i * N) N (m * N + 3), List.map_append]

theorem chunk_recordTags (g : Globals) (N : Nat) (hN : N < 2 ^ 32) (m : Nat) :
    ∀ i, recordTags (chunkResponses g N i m ++ [chunkFinal g ((i + m) * N)])
      = List.replicate (m * N + 3) 0 := by
  induction m with
  | zero =>
    intro i
    simp [chunkResponses, recordTags, chunkFinal, expectedRecords_length]
  | succ m ih =>
    intro i
    have e : (i + (m + 1)) * N = (i + 1 + m) * N := by ring
    have e3 : (m + 1) * N + 3 = N + (m * N + 3) := by ring
    rw [chunkResponses, List.cons_append, recordTags_cons, e, ih (i + 1), e3,
      List.replicate_add N (m * N + 3) 0]
    congr 1
    simp only [recordTags, List.append_nil, expectedRecords_length, Nat.mod_eq_of_lt hN,
      List.length_take, Nat.min_self]

theorem chunk_intermediate (g : Globals) (N : Nat) (hN : N < 2 ^ 32) (m : Nat) :
    ∀ i, ∀ r ∈ chunkResponses g N i m,
      r.echoTag = 0 ∧ r.final = false ∧ r.statusOK = true
        ∧ r.records.length < 2 ^ 32 := by
  induction m with
  | zero =>
    intro i r hr
    simp [chunkResponses] at hr
  | succ m ih =>
    intro i r hr
    rw [chunkResponses, List.mem_cons] at hr
    rcases hr with h | h
    · rw [h]
      refine ⟨?_, ?_, ?_, ?_⟩
      · simp only
      · simp only
      · simp only
      · simp only [expectedRecords_length]
        exact hN
    · exact ih (i + 1) r h

theorem expectedPair_replicate (g : Globals) (T n : Nat) (hn : n < T) :
    expectedPair g (fun k => k) (List.replicate T 0) n
      = (0, wrapInt64 (g.FIRST_TIME + ((0 + n : Nat) : Int) * g.NANOS_BETWEEN_POINTS),
          (0 + n + 1) % 100) := by
  unfold expectedPair
  have hget : (List.replicate T 0).getD n 0 = 0 := by
    rw [List.getD_eq_getElem?_getD, List.getElem?_replicate, if_pos hn]
    rfl
  rw [hget, List.take_replicate, List.count_replicate_self, Nat.min_eq_left (le_of_lt hn)]
  simp

/-- The verifier of scenario C on `m` intermediate responses of `N` matching
records each and a final response of 3 matching records, for a credit of 3: when
`m * N` is a multiple of `2 ^ 32`, every record matches and the flag stays set. -/
theorem chunk_run_passes (m N : Nat) (hN : N < 2 ^ 32) (hwrap : (m * N) % 2 ^ 32 = 0) :
    ∃ d1, validateResponses_run scenarioC_env
          (DemuxState.init scenarioC_globals scenarioC_channels)
          (chunkResponses scenarioC_globals N 0 m ++ [chunkFinal scenarioC_globals ((0 + m) * N)])
        = some d1
      ∧ d1.expectedLog
          = receivedTriples (chunkResponses scenarioC_globals N 0 m
              ++ [chunkFinal scenarioC_globals ((0 + m) * N)])
      ∧ d1.pass = true := by
  have hT0 : inInt64 ((DemuxState.init scenarioC_globals scenarioC_channels
      : DemuxState Nat).times 0) := by
    show inInt64 1000
    decide
  obtain ⟨d1, L, r1, _, r3, r4, _, _⟩ := verify_request_run scenarioC_env rfl
    (chunkFinal scenarioC_globals ((0 + m) * N)) 3
    ⟨rfl, rfl, by rw [show (chunkFinal scenarioC_globals ((0 + m) * N)).records.length = 3
      from expectedRecords_length _ _ _]; norm_num⟩
    (chunkResponses scenarioC_globals N 0 m)
    (DemuxState.init scenarioC_globals scenarioC_channels) []
    (chunk_intermediate scenarioC_globals N hN m 0) rfl hT0
  have hlog := validateResponses_run_det scenarioC_env rfl rfl
    (chunkResponses scenarioC_globals N 0 m ++ [chunkFinal scenarioC_globals ((0 + m) * N)])
    [] (DemuxState.init scenarioC_globals scenarioC_channels) d1
    (by simp [DemuxState.init]) (by simp [DemuxState.init])
    (by
      intro id
      simp only [DemuxState.init, List.count_nil, Nat.cast_zero, zero_mul, add_zero]
      exact (wrapInt64_eq _ hT0.1 hT0.2).symm)
    r1
  rw [List.nil_append, chunk_recordTags scenarioC_globals N hN m 0, List.length_replicate]
    at hlog
  have hexp : d1.expectedLog
      = receivedTriples (chunkResponses scenarioC_globals N 0 m
          ++ [chunkFinal scenarioC_globals ((0 + m) * N)]) := by
    rw [hlog, chunk_receivedTriples scenarioC_globals N m 0, Nat.zero_mul]
    unfold expectedRecords
    rw [List.map_map]
    apply List.map_congr_left
    intro n hn
    exact expectedPair_replicate scenarioC_globals (m * N + 3) n (List.mem_range.mp hn)
  refine ⟨d1, r1, hexp, ?_⟩
  rw [r4]
  refine ⟨rfl, ?_, ?_⟩
  · rw [chunk_recordCount scenarioC_globals N m 0]
    show (0 + (m * N + 3)) % 2 ^ 32 = 3
    omega
  · have h := r3.symm.trans hexp
    simpa [DemuxState.init] using h

/-- C11 as stated fails on the verifier of scenario C: the first request of stream
0 has credit 3 and the accumulator of the stream is 0; it is answered by 32
intermediate responses of `2 ^ 27` records and a final response of 3 records,
every record as the verifier expects it.  The flag is still true after the
final response, although the total number of records, `2 ^ 32 + 3`, is not the
credit. -/
theorem oversized_answer_keeps_pass :
    scenarioC_channels 0 = [3]
      ∧ (∀ r ∈ chunkResponses scenarioC_globals 134217728 0 32,
          r.echoTag = 0 ∧ r.final = false ∧ r.statusOK = true ∧ r.records.length < 2 ^ 32)
      ∧ recordCount oversizedAnswer = 4294967299
      ∧ ∃ d1, validateResponses_run scenarioC_env
            (DemuxState.init scenarioC_globals scenarioC_channels) oversizedAnswer = some d1
          ∧ d1.expectedLog = receivedTriples oversizedAnswer
          ∧ d1.pass = true := by
  refine ⟨rfl, chunk_intermediate scenarioC_globals 134217728 (by norm_num) 32 0, ?_, ?_⟩
  · unfold oversizedAnswer
    rw [chunk_recordCount scenarioC_globals 134217728 32 0]
  · unfold oversizedAnswer
    exact chunk_run_passes 32 134217728 (by norm_num) (by norm_num)

/-- C11 as amended: in verify mode, take a request with credit `c` (the oldest
credit of its stream) on a stream whose accumulator is 0, while the flag is true,
answered by intermediate responses `ints` and one final response `fin` with
status OK.  The verifier processes all of them; afterwards the accumulator is 0
again and the cursor of the stream has advanced by (total records) times
`NANOS_BETWEEN_POINTS` in `int64` arithmetic; and when every record equals the
pair the verifier expects for it, the flag is still true exactly when the total
number of records is `c` modulo `2 ^ 32`, hence, for a total below `2 ^ 32`,
exactly when the total is `c`. -/
theorem verify_request_verdict {V : Type} [DecidableEq V] (env : DemuxEnv V)
    (hv : env.VERIFY_RESPONSES = true) (ints : List (Response V)) (fin : Response V)
    (c : Nat) (rest : List Nat) (d : DemuxState V)
    (hints : ∀ r ∈ ints, r.echoTag = fin.echoTag ∧ r.final = false ∧ r.statusOK = true
      ∧ r.records.length < 2 ^ 32)
    (hfin : fin.final = true ∧ fin.statusOK = true ∧ fin.records.length < 2 ^ 32)
    (hch : d.channels fin.echoTag = c :: rest) (hT : inInt64 (d.times fin.echoTag))
    (hacc : d.receivedCounts fin.echoTag = 0) (hpass : d.pass = true) :
    ∃ d1, validateResponses_run env d (ints ++ [fin]) = some d1
      ∧ d1.receivedCounts fin.echoTag = 0
      ∧ d1.times fin.echoTag
          = wrapInt64 (d.times fin.echoTag
              + (recordCount (ints ++ [fin]) : Int) * env.g.NANOS_BETWEEN_POINTS)
      ∧ (d1.expectedLog = d.expectedLog ++ receivedTriples (ints ++ [fin]) →
          (d1.pass = true ↔ recordCount (ints ++ [fin]) % 2 ^ 32 = c)
            ∧ (recordCount (ints ++ [fin]) < 2 ^ 32 →
                (d1.pass = true ↔ recordCount (ints ++ [fin]) = c))) := by
  obtain ⟨d1, L, r1, _, r3, r4, r5, r6⟩ :=
    verify_request_run env hv fin c hfin ints d rest hints hch hT
  refine ⟨d1, r1, r5, r6, ?_⟩
  intro hmatch
  have hL : L = receivedTriples (ints ++ [fin]) :=
    List.append_cancel_left (r3.symm.trans hmatch)
  have hiff : d1.pass = true ↔ recordCount (ints ++ [fin]) % 2 ^ 32 = c := by
    rw [r4, hacc, Nat.zero_add]
    constructor
    · rintro ⟨_, h, _⟩
      exact h
    · intro h
      exact ⟨hpass, h, hL⟩
  refine ⟨hiff, ?_⟩
  intro hlt
  rw [hiff, Nat.mod_eq_of_lt hlt]

theorem verify_request_verdict_witness :
    (scenarioC_env.VERIFY_RESPONSES = true
        ∧ (∀ r ∈ twoPartAnswer.take 1,
            r.echoTag = (twoPartAnswer.getD 1 (chunkFinal scenarioC_globals 0)).echoTag
              ∧ r.final = false ∧ r.statusOK = true ∧ r.records.length < 2 ^ 32)
        ∧ ((twoPartAnswer.getD 1 (chunkFinal scenarioC_globals 0)).final = true
            ∧ (twoPartAnswer.getD 1 (chunkFinal scenarioC_globals 0)).statusOK = true
            ∧ (twoPartAnswer.getD 1 (chunkFinal scenarioC_globals 0)).records.length < 2 ^ 32)
        ∧ (DemuxState.init scenarioC_globals scenarioC_channels : DemuxState Nat).channels
            (twoPartAnswer.getD 1 (chunkFinal scenarioC_globals 0)).echoTag = 3 :: []
        ∧ inInt64 ((DemuxState.init scenarioC_globals scenarioC_channels : DemuxState Nat).times
            (twoPartAnswer.getD 1 (chunkFinal scenarioC_globals 0)).echoTag)
        ∧ (DemuxState.init scenarioC_globals scenarioC_channels : DemuxState Nat).receivedCounts
            (twoPartAnswer.getD 1 (chunkFinal scenarioC_globals 0)).echoTag = 0
        ∧ (DemuxState.init scenarioC_globals scenarioC_channels : DemuxState Nat).pass = true)
      ∧ ∃ d1, validateResponses_run scenarioC_env
            (DemuxState.init scenarioC_globals scenarioC_channels)
            (twoPartAnswer.take 1 ++ [twoPartAnswer.getD 1 (chunkFinal scenarioC_globals 0)])
          = some d1
        ∧ d1.receivedCounts (twoPartAnswer.getD 1 (chunkFinal scenarioC_globals 0)).echoTag = 0
        ∧ d1.times (twoPartAnswer.getD 1 (chunkFinal scenarioC_globals 0)).echoTag
            = wrapInt64 ((DemuxState.init scenarioC_globals scenarioC_channels
                  : DemuxState Nat).times
                  (twoPartAnswer.getD 1 (chunkFinal scenarioC_globals 0)).echoTag
                + (recordCount (twoPartAnswer.take 1
                    ++ [twoPartAnswer.getD 1 (chunkFinal scenarioC_globals 0)]) : Int)
                  * scenarioC_env.g.NANOS_BETWEEN_POINTS)
        ∧ (d1.expectedLog
              = (DemuxState.init scenarioC_globals scenarioC_channels
                  : DemuxState Nat).expectedLog
                ++ receivedTriples (twoPartAnswer.take 1
                    ++ [twoPartAnswer.getD 1 (chunkFinal scenarioC_globals 0)]) →
            (d1.pass = true
                ↔ recordCount (twoPartAnswer.take 1
                    ++ [twoPartAnswer.getD 1 (chunkFinal scenarioC_globals 0)]) % 2 ^ 32 = 3)
              ∧ (recordCount (twoPartAnswer.take 1
                    ++ [twoPartAnswer.getD 1 (chunkFinal scenarioC_globals 0)]) < 2 ^ 32 →
                  (d1.pass = true
                    ↔ recordCount (twoPartAnswer.take 1
                        ++ [twoPartAnswer.getD 1 (chunkFinal scenarioC_globals 0)]) = 3))) :=
  ⟨⟨rfl, by decide, by decide, rfl, by decide, rfl, rfl⟩,
    verify_request_verdict scenarioC_env rfl (twoPartAnswer.take 1)
      (twoPartAnswer.getD 1 (chunkFinal scenarioC_globals 0)) 3 []
      (DemuxState.init scenarioC_globals scenarioC_channels)
      (by decide) (by decide) rfl (by decide) rfl rfl⟩

/-- On scenario C the two-part answer to the first request of stream 0 (credit 3,
one record then two) is accepted: every record matches, the flag stays true, the
accumulator is back at 0 and the cursor stands at 1300. -/
theorem twoPart_accepted :
    validateResponses_run scenarioC_env (DemuxState.init scenarioC_globals scenarioC_channels)
        twoPartAnswer = some twoPartAfter
      ∧ twoPartAfter.expectedLog = receivedTriples twoPartAnswer
      ∧ twoPartAfter.pass = true ∧ twoPartAfter.receivedCounts 0 = 0
      ∧ twoPartAfter.times 0 = 1300 ∧ recordCount twoPartAnswer = 3 := by
  refine ⟨rfl, by decide, by decide, by decide, by decide, by decide⟩

end QuasarLoadGenerator
